import Mathlib

/-!
# Command execution engine of runme: Native and Virtual commands

A shallow embedding of `internal/command/command_native.go` and
`internal/command/command_virtual.go`, of the loop of
`internal/cmd/beta/run_cmd.go` and of the parsing and validation of
`internal/config/config.go`.

Conventions of the embedding.

* A Go `error` is `Option Err`; `none` is Go `nil`.
* A method with a pointer receiver is a function from the receiver's fields
  (and the trace of effects so far) to an `Outcome`: what the call returned
  (or that it panicked), the receiver's fields afterwards, and the trace
  extended with the effects the call performed, oldest first.
* Calls into the operating system and into libraries whose result the
  program cannot predict (`signalPgid`, `os.Process.Signal`, `os.Process.Kill`,
  `os.Process.Wait`, `os.StartProcess`, `pty.Open`, `normalizeConfig`, ...)
  take their result from a `Sys` record, which is universally quantified in
  the theorems.
* Calls to the logger have no effect on the state or on a result and are
  left out.
-/

namespace Runme

/-! ## Go values -/

namespace os

/-- The value of `os.Signal` passed to `Signal`: its number. -/
abbrev Signal := Nat

/-- The exit state `os.ProcessState` of a reaped child. -/
inductive ProcessState where
  | exited (code : Nat)
  | signaled (sig : Nat)
  deriving DecidableEq, Repr

/-- Method `ProcessState.Success`: exited with status 0. -/
def ProcessState.Success : ProcessState → Bool
  | .exited 0 => true
  | _ => false

/-- The handle `os.Process` of a started child. -/
structure Process where
  Pid : Int
  deriving DecidableEq, Repr

end os

/-- The wrappers that keep their cause reachable through `Unwrap`. -/
inductive Wrapper where
  /-- Wrapper `withStack` of `github.com/pkg/errors`. -/
  | stack
  /-- Wrapper `withMessage` of `github.com/pkg/errors`. -/
  | message (msg : String)
  /-- Wrapper `os.PathError`. -/
  | path (op : String) (file : String)
  deriving DecidableEq, Repr

/-- Non-nil Go error values. -/
inductive Err where
  /-- A `syscall.Errno`. -/
  | errno (n : Nat)
  /-- A value made by `errors.New`, identified by its variable or text. -/
  | sentinel (name : String)
  /-- An `*exec.ExitError`. -/
  | exitError (state : os.ProcessState)
  /-- An error wrapping its cause. -/
  | wrap (w : Wrapper) (err : Err)
  /-- A `multierr` aggregate of two or more errors. -/
  | multi (errs : List Err)

mutual
/-- Decision procedure for equality of errors. -/
def Err.decEq : (a b : Err) → Decidable (a = b)
  | .errno a, .errno b =>
    if h : a = b then isTrue (by rw [h]) else isFalse (by intro h2; cases h2; exact h rfl)
  | .sentinel a, .sentinel b =>
    if h : a = b then isTrue (by rw [h]) else isFalse (by intro h2; cases h2; exact h rfl)
  | .exitError a, .exitError b =>
    if h : a = b then isTrue (by rw [h]) else isFalse (by intro h2; cases h2; exact h rfl)
  | .wrap v a, .wrap w b =>
    match Err.decEq a b with
    | isTrue h =>
      if hw : v = w then isTrue (by rw [h, hw])
      else isFalse (by intro h2; cases h2; exact hw rfl)
    | isFalse h => isFalse (by intro h2; cases h2; exact h rfl)
  | .multi as, .multi bs =>
    match Err.decEqList as bs with
    | isTrue h => isTrue (by rw [h])
    | isFalse h => isFalse (by intro h2; cases h2; exact h rfl)
  | .errno _, .sentinel _ => isFalse (by intro h; cases h)
  | .errno _, .exitError _ => isFalse (by intro h; cases h)
  | .errno _, .wrap _ _ => isFalse (by intro h; cases h)
  | .errno _, .multi _ => isFalse (by intro h; cases h)
  | .sentinel _, .errno _ => isFalse (by intro h; cases h)
  | .sentinel _, .exitError _ => isFalse (by intro h; cases h)
  | .sentinel _, .wrap _ _ => isFalse (by intro h; cases h)
  | .sentinel _, .multi _ => isFalse (by intro h; cases h)
  | .exitError _, .errno _ => isFalse (by intro h; cases h)
  | .exitError _, .sentinel _ => isFalse (by intro h; cases h)
  | .exitError _, .wrap _ _ => isFalse (by intro h; cases h)
  | .exitError _, .multi _ => isFalse (by intro h; cases h)
  | .wrap _ _, .errno _ => isFalse (by intro h; cases h)
  | .wrap _ _, .sentinel _ => isFalse (by intro h; cases h)
  | .wrap _ _, .exitError _ => isFalse (by intro h; cases h)
  | .wrap _ _, .multi _ => isFalse (by intro h; cases h)
  | .multi _, .errno _ => isFalse (by intro h; cases h)
  | .multi _, .sentinel _ => isFalse (by intro h; cases h)
  | .multi _, .exitError _ => isFalse (by intro h; cases h)
  | .multi _, .wrap _ _ => isFalse (by intro h; cases h)
/-- Decision procedure for equality of lists of errors. -/
def Err.decEqList : (as bs : List Err) → Decidable (as = bs)
  | [], [] => isTrue rfl
  | [], _ :: _ => isFalse (by intro h; cases h)
  | _ :: _, [] => isFalse (by intro h; cases h)
  | a :: as, b :: bs =>
    match Err.decEq a b with
    | isTrue h =>
      match Err.decEqList as bs with
      | isTrue h2 => isTrue (by rw [h, h2])
      | isFalse h2 => isFalse (by intro h3; cases h3; exact h2 rfl)
    | isFalse h => isFalse (by intro h3; cases h3; exact h rfl)
end

instance : DecidableEq Err := Err.decEq

/-- The error `syscall.EIO` (errno 5 on Linux). -/
def syscall.EIO : Err := .errno 5

/-- The error `os.ErrClosed`, "file already closed". -/
def os.ErrClosed : Err := .sentinel "os.ErrClosed"

namespace errors

/-- Function `errors.WithStack`: nil stays nil, any other error is wrapped. -/
def WithStack : Option Err → Option Err
  | none => none
  | some e => some (.wrap .stack e)

/-- Function `errors.WithMessage`: nil stays nil, any other error is wrapped. -/
def WithMessage : Option Err → String → Option Err
  | none, _ => none
  | some e, msg => some (.wrap (.message msg) e)

/-- Function `errors.Wrap`: a message and then a stack around a non-nil error. -/
def Wrap : Option Err → String → Option Err
  | none, _ => none
  | some e, msg => some (.wrap .stack (.wrap (.message msg) e))

mutual
/-- Function `errors.Is` on a non-nil error: the target is the error itself or
is reached by unwrapping (through every member of an aggregate). -/
def IsErr : Err → Err → Bool
  | .errno n, t => decide (Err.errno n = t)
  | .sentinel m, t => decide (Err.sentinel m = t)
  | .exitError s, t => decide (Err.exitError s = t)
  | .wrap w e, t => decide (Err.wrap w e = t) || IsErr e t
  | .multi es, t => decide (Err.multi es = t) || IsAny es t
/-- Some member of the list satisfies `errors.Is`. -/
def IsAny : List Err → Err → Bool
  | [], _ => false
  | e :: es, t => IsErr e t || IsAny es t
end

/-- Function `errors.Is`: false on a nil error. -/
def Is : Option Err → Err → Bool
  | none, _ => false
  | some e, t => IsErr e t

end errors

namespace multierr

/-- Function `multierr.Errors` on a non-nil error: the members of an aggregate,
the error itself otherwise. -/
def Errors : Err → List Err
  | .multi es => es
  | e => [e]

/-- Function `multierr.Append`: a nil side yields the other side, two non-nil
sides yield the flat aggregate of both. -/
def Append : Option Err → Option Err → Option Err
  | none, right => right
  | some l, none => some l
  | some l, some r => some (.multi (Errors l ++ Errors r))

end multierr

/-! ## Effects and outcomes -/

/-- Type `Winsize` (that of `pty.Winsize`): rows, columns and pixel sizes. -/
structure Winsize where
  Rows : Nat
  Cols : Nat
  X : Nat
  Y : Nat
  deriving DecidableEq

/-- An effect performed on the outside world, with the error it returned. -/
inductive Event where
  | signalPgid (pid : Int) (sig : os.Signal) (res : Option Err)
  | processSignal (pid : Int) (sig : os.Signal) (res : Option Err)
  | processKill (pid : Int) (res : Option Err)
  | dup (fd : Nat) (ok : Bool)
  | ptyOpen (ok : Bool)
  | cmdStart (res : Option Err)
  | cmdWait (res : Option Err)
  | stdinClose (res : Option Err)
  | ttyClose (res : Option Err)
  | ptyClose (res : Option Err)
  | setsize (fd : Nat) (ws : Winsize) (res : Option Err)
  | goPump (stdin : Bool)
  | callStart (block : Nat)
  | callWait (block : Nat)
  | stderrWrite (msg : String) (res : Option Err)
  | wgWait
  | cleanFunc (id : Nat) (res : Option Err)
  deriving DecidableEq

/-- What a call did: it returned an error value, or it panicked. -/
inductive Ret where
  | returned (err : Option Err)
  | panicked
  deriving DecidableEq

/-- The result of a method call on a receiver with fields `σ`. -/
structure Outcome (σ : Type) where
  ret : Ret
  state : σ
  trace : List Event

/-- A registered cleanup callback `func() error`: its identity and the error
it returns when called. -/
structure CleanFunc where
  id : Nat
  result : Option Err
  deriving DecidableEq

/-- The fields of `Config` that reach `exec.CommandContext`. -/
structure Config where
  ProgramName : String
  Arguments : List String
  Directory : String
  Env : List String
  deriving DecidableEq

/-- An interface-typed I/O endpoint (`io.Reader`, `io.Writer`). -/
inductive Handle where
  /-- The nil interface. -/
  | absent
  /-- A non-nil interface holding a nil pointer. -/
  | typedNil
  /-- An open `*os.File` with its descriptor. -/
  | file (fd : Nat)
  /-- The struct value `io.Discard`. -/
  | discard
  /-- Any other non-nil pointer-typed reader or writer. -/
  | other (id : Nat)
  deriving DecidableEq

/-- The fields of `Options` used by the commands (kernel, logger and session
only feed `normalizeConfig`). -/
structure Options where
  Stdin : Handle
  Stdout : Handle
  Stderr : Handle
  deriving DecidableEq

/-- The fields of `exec.Cmd` the commands read. -/
structure exec.Cmd where
  Process : Option os.Process
  ProcessState : Option os.ProcessState
  deriving DecidableEq

/-- The two I/O pumps of a Virtual command. -/
inductive Pump where
  | stdin
  | output
  deriving DecidableEq

/-- Results of the calls whose outcome the program does not determine. -/
structure Sys where
  /-- Function `signalPgid(pid, sig)`. -/
  signalPgid : Int → os.Signal → Option Err
  /-- Method `os.Process.Signal`. -/
  processSignal : Int → os.Signal → Option Err
  /-- Method `os.Process.Kill`. -/
  processKill : Int → Option Err
  /-- Method `os.Process.Wait`: the exit state, or an error. -/
  processWait : Int → Except Err os.ProcessState
  /-- The error of the copying goroutines that `exec.Cmd.Wait` joins. -/
  cmdCopyErr : Option Err
  /-- Function `normalizeConfig` with the four normalizers. -/
  normalizeConfig : Config → Except Err (Config × List CleanFunc)
  /-- Function `dup` on the descriptor of stdin. -/
  dup : Nat → Except Err Nat
  /-- Function `os.StartProcess` as called by `exec.Cmd.Start`. -/
  startProcess : Config → Except Err os.Process
  /-- Function `pty.Open`: descriptors of master and slave. -/
  ptyOpen : Except Err (Nat × Nat)
  /-- Function `disableEcho` on the slave. -/
  disableEcho : Nat → Option Err
  /-- Method `Close` of the slave file. -/
  ttyClose : Option Err
  /-- Function `pty.Setsize` on the master with the given descriptor. -/
  ptySetsize : Nat → Winsize → Option Err
  /-- The error that ends the `io.Copy` of a pump. -/
  copyResult : Pump → Option Err
  /-- Whether the output pump reaches its end before the stdin pump. -/
  outputPumpFirst : Bool

/-- Package variable `SignalToProcessGroup` (initially true). -/
structure Globals where
  SignalToProcessGroup : Bool
  deriving DecidableEq

/-! ## exec.Cmd -/

/-- Method `exec.Cmd.Start` on a fresh command: the process handle is set iff
the process was created. -/
def exec.Cmd.Start (sys : Sys) (cfg : Config) (c : exec.Cmd) : exec.Cmd × Option Err :=
  match c.Process with
  | some _ => (c, some (.sentinel "exec: already started"))
  | none =>
    match sys.startProcess cfg with
    | .error e => (c, some e)
    | .ok p => ({ c with Process := some p }, none)

/-- Method `exec.Cmd.Wait`: refuses a command that was not started or was
already waited for; otherwise waits for the process, stores its exit state and
reports an unsuccessful exit as an `ExitError`. -/
def exec.Cmd.Wait (sys : Sys) (c : exec.Cmd) : exec.Cmd × Option Err :=
  match c.Process with
  | none => (c, some (.sentinel "exec: not started"))
  | some p =>
    match c.ProcessState with
    | some _ => (c, some (.sentinel "exec: Wait was already called"))
    | none =>
      match sys.processWait p.Pid with
      | .error e => ({ c with ProcessState := none }, some e)
      | .ok st =>
        let err : Option Err := if st.Success then none else some (.exitError st)
        ({ c with ProcessState := some st },
          if err.isNone then sys.cmdCopyErr else err)

/-! ## NativeCommand -/

/-- The fields of `NativeCommand`; `cmd` is nil until `Start` creates it. -/
structure NativeCommand where
  cfg : Config
  opts : Options
  cmd : Option exec.Cmd
  cleanFuncs : List CleanFunc
  deriving DecidableEq

/-- Function `NewNative`. -/
def NewNative (cfg : Config) (opts : Options) : NativeCommand :=
  { cfg := cfg, opts := opts, cmd := none, cleanFuncs := [] }

/-- Method `NativeCommand.Running`: `c.cmd != nil && c.cmd.ProcessState == nil`. -/
def NativeCommand.Running (c : NativeCommand) : Bool :=
  match c.cmd with
  | none => false
  | some cmd => cmd.ProcessState.isNone

/-- Method `NativeCommand.Pid`: 0 when `cmd` or `cmd.Process` is nil. -/
def NativeCommand.Pid (c : NativeCommand) : Int :=
  match c.cmd with
  | none => 0
  | some cmd =>
    match cmd.Process with
    | none => 0
    | some p => p.Pid

/-- Method `NativeCommand.Start`. -/
def NativeCommand.Start (sys : Sys) (c : NativeCommand) (tr : List Event) :
    Outcome NativeCommand :=
  match sys.normalizeConfig c.cfg with
  | .error e => ⟨.returned (some e), c, tr⟩
  | .ok (cfg, cleanups) =>
    let c1 := { c with cleanFuncs := c.cleanFuncs ++ cleanups }
    let start (tr1 : List Event) : Outcome NativeCommand :=
      let fresh : exec.Cmd := { Process := none, ProcessState := none }
      let (cmd, err) := exec.Cmd.Start sys cfg fresh
      let c2 := { c1 with cmd := some cmd }
      let tr2 := tr1 ++ [.cmdStart err]
      match err with
      | some e => ⟨.returned (errors.WithStack (some e)), c2, tr2⟩
      | none => ⟨.returned none, c2, tr2⟩
    match c.opts.Stdin with
    | .file fd =>
      match sys.dup fd with
      | .error e =>
        ⟨.returned (errors.Wrap (some e) "failed to dup stdin"), c1, tr ++ [.dup fd false]⟩
      | .ok _ => start (tr ++ [.dup fd true])
    | _ => start tr

/-- Method `NativeCommand.Signal`. A nil `cmd` or `cmd.Process` is
dereferenced: the call panics. -/
def NativeCommand.Signal (g : Globals) (sys : Sys) (c : NativeCommand) (sig : os.Signal)
    (tr : List Event) : Outcome NativeCommand :=
  match c.cmd with
  | none => ⟨.panicked, c, tr⟩
  | some cmd =>
    match cmd.Process with
    | none => ⟨.panicked, c, tr⟩
    | some p =>
      if g.SignalToProcessGroup then
        let err := sys.signalPgid p.Pid sig
        let tr1 := tr ++ [.signalPgid p.Pid sig err]
        if err.isNone then
          ⟨.returned none, c, tr1⟩
        else
          let errS := sys.processSignal p.Pid sig
          let tr2 := tr1 ++ [.processSignal p.Pid sig errS]
          if errS.isSome then
            let errK := sys.processKill p.Pid
            ⟨.returned (errors.WithStack errK), c, tr2 ++ [.processKill p.Pid errK]⟩
          else
            ⟨.returned none, c, tr2⟩
      else
        let errS := sys.processSignal p.Pid sig
        let tr2 := tr ++ [.processSignal p.Pid sig errS]
        if errS.isSome then
          let errK := sys.processKill p.Pid
          ⟨.returned (errors.WithStack errK), c, tr2 ++ [.processKill p.Pid errK]⟩
        else
          ⟨.returned none, c, tr2⟩

/-- The loop of `cleanup` from the accumulated error `err`: every callback
is called, a non-nil result is appended to the aggregate. -/
def cleanupLoop : List CleanFunc → Option Err → List Event → Option Err × List Event
  | [], err, tr => (err, tr)
  | fn :: fns, err, tr =>
    let errFn := fn.result
    let err1 := if errFn.isSome then multierr.Append err errFn else err
    cleanupLoop fns err1 (tr ++ [.cleanFunc fn.id errFn])

/-- Method `NativeCommand.cleanup`. -/
def NativeCommand.cleanup (c : NativeCommand) (tr : List Event) : Option Err × List Event :=
  cleanupLoop c.cleanFuncs none tr

/-- Method `NativeCommand.Wait`. The deferred function runs `cleanup` when the
body returns and also when `c.cmd.Wait()` panics on a nil `cmd`. -/
def NativeCommand.Wait (sys : Sys) (c : NativeCommand) (tr : List Event) :
    Outcome NativeCommand :=
  match c.cmd with
  | none =>
    let (_, tr1) := c.cleanup tr
    ⟨.panicked, c, tr1⟩
  | some cmd =>
    let (cmd1, errW) := exec.Cmd.Wait sys cmd
    let c1 := { c with cmd := some cmd1 }
    let err := errors.WithStack errW
    let tr1 := tr ++ [.cmdWait errW]
    let (errC, tr2) := c1.cleanup tr1
    let cleanErr := errors.WithStack errC
    let err1 := if err.isNone && cleanErr.isSome then cleanErr else err
    ⟨.returned err1, c1, tr2⟩

/-! ## VirtualCommand -/

/-- The adapter `readCloser` around the stdin reader; `done` tells whether its
channel has been closed. -/
structure readCloser where
  r : Handle
  done : Bool
  deriving DecidableEq

/-- Method `readCloser.Close`: closes the channel and returns nil; closing a
closed channel panics (no result). -/
def readCloser.Close (r : readCloser) : Option (readCloser × Option Err) :=
  if r.done then none else some ({ r with done := true }, none)

/-- The fields of `VirtualCommand`. `pty` and `tty` hold the descriptors of
the master and the slave, `wg` the pumps added to the wait-group that are not
done yet, `err` the error slot guarded by `mu`. -/
structure VirtualCommand where
  cfg : Config
  opts : Options
  cmd : Option exec.Cmd
  stdin : Option readCloser
  cleanFuncs : List CleanFunc
  pty : Option Nat
  tty : Option Nat
  wg : List Pump
  err : Option Err
  deriving DecidableEq

/-- Function `isNil` on an interface value: the nil interface and a nil
pointer in an interface are nil, a struct value is not. -/
def isNil : Handle → Bool
  | .absent => true
  | .typedNil => true
  | .discard => false
  | .file _ => false
  | .other _ => false

/-- Function `NewVirtual`: stdin is wrapped when the interface is not nil, a
nil stdout interface is replaced by `io.Discard`. -/
def NewVirtual (cfg : Config) (opts : Options) : VirtualCommand :=
  { cfg := cfg
    opts := { opts with Stdout := if opts.Stdout = .absent then .discard else opts.Stdout }
    cmd := none
    stdin := if opts.Stdin = .absent then none else some { r := opts.Stdin, done := false }
    cleanFuncs := []
    pty := none
    tty := none
    wg := []
    err := none }

/-- Method `VirtualCommand.Running`: `c.cmd != nil && c.cmd.ProcessState == nil`. -/
def VirtualCommand.Running (c : VirtualCommand) : Bool :=
  match c.cmd with
  | none => false
  | some cmd => cmd.ProcessState.isNone

/-- Method `VirtualCommand.Pid`: 0 when `cmd` or `cmd.Process` is nil. -/
def VirtualCommand.Pid (c : VirtualCommand) : Int :=
  match c.cmd with
  | none => 0
  | some cmd =>
    match cmd.Process with
    | none => 0
    | some p => p.Pid

/-- Method `VirtualCommand.setErr`: a nil argument is ignored, a non-nil one
is stored when the slot is nil. -/
def VirtualCommand.setErr (c : VirtualCommand) (err : Option Err) : VirtualCommand :=
  if err.isNone then c
  else if c.err.isNone then { c with err := err }
  else c

/-- The stdin pump after its `io.Copy` returned `err`. -/
def VirtualCommand.stdinPump (c : VirtualCommand) (err : Option Err) : VirtualCommand :=
  if err.isSome then c.setErr (errors.WithStack err) else c

/-- The output pump after its `io.Copy` from the master returned `err`. -/
def VirtualCommand.outputPump (c : VirtualCommand) (err : Option Err) : VirtualCommand :=
  if err.isSome then
    if errors.Is err syscall.EIO then c
    else if errors.Is err os.ErrClosed then c
    else c.setErr (errors.WithStack err)
  else c

/-- Method `VirtualCommand.Start`. The pumps are goroutines: each is added to
the wait-group and ends at some later point, see `wgWait`. -/
def VirtualCommand.Start (sys : Sys) (c : VirtualCommand) (tr : List Event) :
    Outcome VirtualCommand :=
  match sys.normalizeConfig c.cfg with
  | .error e => ⟨.returned (some e), c, tr⟩
  | .ok (cfg, cleanups) =>
    let c1 := { c with cleanFuncs := c.cleanFuncs ++ cleanups }
    match sys.ptyOpen with
    | .error e =>
      ⟨.returned (errors.WithStack (some e)), { c1 with pty := none, tty := none },
        tr ++ [.ptyOpen false]⟩
    | .ok (master, slave) =>
      let c2 := { c1 with pty := some master, tty := some slave }
      let tr2 := tr ++ [.ptyOpen true]
      match sys.disableEcho slave with
      | some e => ⟨.returned (some e), c2, tr2⟩
      | none =>
        let fresh : exec.Cmd := { Process := none, ProcessState := none }
        let (cmd, err) := exec.Cmd.Start sys cfg fresh
        let c3 := { c2 with cmd := some cmd }
        let tr3 := tr2 ++ [.cmdStart err]
        match err with
        | some e => ⟨.returned (errors.WithStack (some e)), c3, tr3⟩
        | none =>
          let c4 := if c3.stdin.isSome then { c3 with wg := c3.wg ++ [.stdin] } else c3
          let tr4 := if c3.stdin.isSome then tr3 ++ [.goPump true] else tr3
          let c5 := if !isNil c4.opts.Stdout then { c4 with wg := c4.wg ++ [.output] } else c4
          let tr5 := if !isNil c4.opts.Stdout then tr4 ++ [.goPump false] else tr4
          ⟨.returned none, c5, tr5⟩

/-- Method `VirtualCommand.Signal`. It does not read `SignalToProcessGroup`. -/
def VirtualCommand.Signal (_g : Globals) (sys : Sys) (c : VirtualCommand) (sig : os.Signal)
    (tr : List Event) : Outcome VirtualCommand :=
  match c.cmd with
  | none => ⟨.panicked, c, tr⟩
  | some cmd =>
    match cmd.Process with
    | none => ⟨.panicked, c, tr⟩
    | some p =>
      let err := sys.signalPgid p.Pid sig
      let tr1 := tr ++ [.signalPgid p.Pid sig err]
      if err.isSome then
        let errS := sys.processSignal p.Pid sig
        let tr2 := tr1 ++ [.processSignal p.Pid sig errS]
        if errS.isSome then
          let errK := sys.processKill p.Pid
          ⟨.returned (errors.WithStack errK), c, tr2 ++ [.processKill p.Pid errK]⟩
        else
          ⟨.returned none, c, tr2⟩
      else
        ⟨.returned none, c, tr1⟩

/-- Method `Close` of the slave `*os.File`: a nil file yields `os.ErrInvalid`. -/
def ttyCloseResult (sys : Sys) (tty : Option Nat) : Option Err :=
  match tty with
  | none => some (.sentinel "os.ErrInvalid")
  | some _ => sys.ttyClose

/-- Method `VirtualCommand.closeIO`: closes the stdin adapter when there is
one, then the slave; the master is not closed. The result is `none` when
closing the adapter panics. -/
def VirtualCommand.closeIO (sys : Sys) (c : VirtualCommand) (tr : List Event) :
    Option (Option Err) × VirtualCommand × List Event :=
  let closeTty (c1 : VirtualCommand) (err : Option Err) (tr1 : List Event) :
      Option (Option Err) × VirtualCommand × List Event :=
    let errClose := ttyCloseResult sys c1.tty
    let err1 :=
      if errClose.isSome then
        multierr.Append err (errors.WithMessage errClose "failed to close tty")
      else err
    (some err1, c1, tr1 ++ [.ttyClose errClose])
  match c.stdin with
  | none => closeTty c none tr
  | some r =>
    match r.Close with
    | none => (none, c, tr)
    | some (r1, errClose) =>
      let err :=
        if errClose.isSome then
          multierr.Append none (errors.WithMessage errClose "failed to close stdin")
        else none
      closeTty { c with stdin := some r1 } err (tr ++ [.stdinClose errClose])

/-- One pump reaching its end with the error of its copy. -/
def VirtualCommand.pumpDone (sys : Sys) (c : VirtualCommand) : Pump → VirtualCommand
  | .stdin => c.stdinPump (sys.copyResult .stdin)
  | .output => c.outputPump (sys.copyResult .output)

/-- The call `c.wg.Wait()`: it returns once every pump added to the wait-group
is done. The pumps touch the command only through `setErr`, and the slot is
read only after this call, so their ends are placed here, in the order the
scheduler chose. -/
def VirtualCommand.wgWait (sys : Sys) (c : VirtualCommand) (tr : List Event) :
    VirtualCommand × List Event :=
  let order := if sys.outputPumpFirst then c.wg.reverse else c.wg
  let c1 := order.foldl ( VirtualCommand.pumpDone sys) c
  ({ c1 with wg := [] }, tr ++ [.wgWait])

/-- Method `VirtualCommand.cleanup`. -/
def VirtualCommand.cleanup (c : VirtualCommand) (tr : List Event) : Option Err × List Event :=
  cleanupLoop c.cleanFuncs none tr

/-- Method `VirtualCommand.Wait`. The deferred function runs `cleanup` when the
body returns and also when the body panics (nil `cmd`, stdin adapter closed
before). -/
def VirtualCommand.Wait (sys : Sys) (c : VirtualCommand) (tr : List Event) :
    Outcome VirtualCommand :=
  match c.cmd with
  | none =>
    let (_, tr1) := c.cleanup tr
    ⟨.panicked, c, tr1⟩
  | some cmd =>
    let (cmd1, errW) := exec.Cmd.Wait sys cmd
    let c1 := { c with cmd := some cmd1 }
    let err := errors.WithStack errW
    let tr1 := tr ++ [.cmdWait errW]
    match VirtualCommand.closeIO sys c1 tr1 with
    | (none, c2, tr2) =>
      let (_, tr3) := c2.cleanup tr2
      ⟨.panicked, c2, tr3⟩
    | (some errIO, c2, tr2) =>
      let err1 := if err.isNone && errIO.isSome then errIO else err
      let (c3, tr3) := VirtualCommand.wgWait sys c2 tr2
      let err2 := if err1.isNone && c3.err.isSome then c3.err else err1
      let (errC0, tr4) := c3.cleanup tr3
      let errC := errors.WithStack errC0
      let err3 := if err2.isNone && errC.isSome then errC else err2
      ⟨.returned err3, c3, tr4⟩

/-- The error an effect returned, for the effects that return one. -/
def Event.res : Event → Option Err
  | .signalPgid _ _ r => r
  | .processSignal _ _ r => r
  | .processKill _ r => r
  | .cmdStart r => r
  | .cmdWait r => r
  | .stdinClose r => r
  | .ttyClose r => r
  | .ptyClose r => r
  | .setsize _ _ r => r
  | .cleanFunc _ r => r
  | .dup _ _ => none
  | .ptyOpen _ => none
  | .goPump _ => none
  | .callStart _ => none
  | .callWait _ => none
  | .stderrWrite _ r => r
  | .wgWait => none

/-! ## Concrete systems and commands -/

/-- A system in which every call succeeds: the child gets pid 4242 and exits
with status 0. -/
def sysOk : Sys :=
  { signalPgid := fun _ _ => none
    processSignal := fun _ _ => none
    processKill := fun _ => none
    processWait := fun _ => .ok (.exited 0)
    cmdCopyErr := none
    normalizeConfig := fun cfg => .ok (cfg, [])
    dup := fun fd => .ok (fd + 100)
    startProcess := fun _ => .ok ⟨4242⟩
    ptyOpen := .ok (10, 11)
    disableEcho := fun _ => none
    ttyClose := none
    ptySetsize := fun _ _ => none
    copyResult := fun _ => none
    outputPumpFirst := false }

/-- The errno `ESRCH`, "no such process". -/
def syscall.ESRCH : Err := .errno 3

/-- The errno `ENOENT`, "no such file or directory". -/
def syscall.ENOENT : Err := .errno 2

/-- A system in which signalling the group fails and everything else succeeds. -/
def sysGroupFails : Sys :=
  { sysOk with signalPgid := fun _ _ => some syscall.ESRCH }

/-- A system in which the child cannot be created. -/
def sysStartFails : Sys :=
  { sysOk with startProcess := fun _ => .error (.wrap (.path "chdir" "/nowhere") syscall.ENOENT) }

/-- A system in which the child exits with status 1. -/
def sysExitOne : Sys :=
  { sysOk with processWait := fun _ => .ok (.exited 1) }

/-- A configuration running `sh`. -/
def cfgSh : Config :=
  { ProgramName := "sh", Arguments := ["-c", "true"], Directory := "", Env := [] }

/-- Options with no stream attached. -/
def optsNone : Options :=
  { Stdin := .absent, Stdout := .absent, Stderr := .absent }

/-- A cleanup callback that removes a temporary file and succeeds. -/
def cleanOk : CleanFunc := { id := 1, result := none }

/-- A cleanup callback that fails. -/
def cleanFails : CleanFunc := { id := 2, result := some (.sentinel "remove failed") }

/-- A started child with pid 4242 that has not been waited for. -/
def cmdStarted : exec.Cmd := { Process := some ⟨4242⟩, ProcessState := none }

/-- A started NativeCommand with two cleanup callbacks, the second failing. -/
def nativeStarted : NativeCommand :=
  { cfg := cfgSh, opts := optsNone, cmd := some cmdStarted, cleanFuncs := [cleanOk, cleanFails] }

/-- A started VirtualCommand with a stdin adapter, both pumps running and two
cleanup callbacks, the second failing. -/
def virtualStarted : VirtualCommand :=
  { cfg := cfgSh
    opts := { optsNone with Stdin := .other 0, Stdout := .discard }
    cmd := some cmdStarted
    stdin := some { r := .other 0, done := false }
    cleanFuncs := [cleanOk, cleanFails]
    pty := some 10
    tty := some 11
    wg := [.stdin, .output]
    err := none }

/-- The events of calling the callbacks in list order. -/
def cleanEvents (fns : List CleanFunc) : List Event :=
  fns.map (fun fn => Event.cleanFunc fn.id fn.result)

/-! ## SetWinsize -/

/-- Function `SetWinsize`: nothing is done when `cmd.pty` is nil; otherwise
`pty.Setsize` is called on the master with the given winsize and its error is
returned with a stack. -/
def SetWinsize (sys : Sys) (cmd : VirtualCommand) (winsize : Winsize) (tr : List Event) :
    Outcome VirtualCommand :=
  match cmd.pty with
  | none => ⟨.returned none, cmd, tr⟩
  | some fd =>
    let err := sys.ptySetsize fd winsize
    ⟨.returned (errors.WithStack err), cmd, tr ++ [.setsize fd winsize err]⟩

/-- A call of one of the operations of a VirtualCommand. -/
inductive VirtualCall where
  | Start
  | Signal (sig : os.Signal)
  | Wait
  | SetWinsize (winsize : Winsize)
  deriving DecidableEq

/-- The call made on the command. -/
def VirtualCall.run (g : Globals) (sys : Sys) :
    VirtualCall → VirtualCommand → List Event → Outcome VirtualCommand
  | .Start, c, tr => VirtualCommand.Start sys c tr
  | .Signal sig, c, tr => VirtualCommand.Signal g sys c sig tr
  | .Wait, c, tr => VirtualCommand.Wait sys c tr
  | .SetWinsize winsize, c, tr => Runme.SetWinsize sys c winsize tr

/-- The calls made one after the other: the command and the effects after
the last one. -/
def runCalls (g : Globals) (sys : Sys) :
    List VirtualCall → VirtualCommand → List Event → VirtualCommand × List Event
  | [], c, tr => (c, tr)
  | call :: calls, c, tr =>
    runCalls g sys calls (call.run g sys c tr).state (call.run g sys c tr).trace

/-- Whether the master has been closed: some effect so far is its `Close`. -/
def masterClosed (tr : List Event) : Bool :=
  tr.any (fun e => match e with
    | .ptyClose _ => true
    | _ => false)

/-- A winsize of 64 rows and 200 columns. -/
def winsize64x200 : Winsize := { Rows := 64, Cols := 200, X := 0, Y := 0 }

/-! ## readCloser.Read -/

/-- The error `io.EOF`. -/
def io.EOF : Err := .sentinel "io.EOF"

/-- What has happened by the time the `select` of `Read` takes its decision:
whether the read of the wrapped reader has completed (the goroutine closed
`readc`), whether `Close` has been called since the `Read` began, and which
case is taken when both channels are ready. -/
structure ReadRace where
  readDone : Bool
  closed : Bool
  pickRead : Bool
  deriving DecidableEq

/-- Method `readCloser.Read`, given the result `(n, err)` of the wrapped
reader's `Read` into the same buffer. The `select` takes the case of the
channel that is ready, either case when both are, and blocks (no result) while
neither is. -/
def readCloser.Read (r : readCloser) (under : Nat × Option Err) (race : ReadRace) :
    Option (Nat × Option Err) :=
  let readcReady := race.readDone
  let doneReady := r.done || race.closed
  if readcReady && doneReady then
    if race.pickRead then some under else some (0, some io.EOF)
  else if readcReady then some under
  else if doneReady then some (0, some io.EOF)
  else none

/-! ## Exit code of the stream -/

/-- Modelled from the spec: the function of the Execute handler that turns the
end of the child into the `ExitCode` of the stream is not under `src/` (only
its test is). Section 6 of the spec: the natural exit code of a child that
exited normally, `128 + signum` for a child terminated by a signal. -/
def exitCodeOf : os.ProcessState → Nat
  | .exited code => code
  | .signaled sig => 128 + sig

/-- A started NativeCommand whose only cleanup callback succeeds. -/
def nativeCleanOk : NativeCommand :=
  { nativeStarted with cleanFuncs := [cleanOk] }

/-- Options whose stdout is a nil pointer inside a non-nil interface. -/
def optsTypedNil : Options :=
  { optsNone with Stdout := .typedNil }

/-- A system in which config normalization fails. -/
def sysNormalizeFails : Sys :=
  { sysOk with normalizeConfig := fun _ => .error (.sentinel "unresolved program") }

/-! ## runCmd -/

/-- Interface `command.Command` as `runCodeBlock` uses it: a new command with
its methods `Start` and `Wait`, each giving what it returned, the command
afterwards and the effects it performed. -/
structure Command where
  State : Type
  new : State
  Start : State → Ret × State × List Event
  Wait : State → Ret × State × List Event

/-- A `document.CodeBlock`, by its position in the document. -/
structure CodeBlock where
  id : Nat
  deriving DecidableEq

/-- A `project.Task`: the code block it carries. -/
structure Task where
  CodeBlock : CodeBlock
  deriving DecidableEq

/-- Method `Kernel.Command`: the command a kernel makes for a config. -/
abbrev Kernel := Config → Options → Command

/-- What `runCmd` gets from its surroundings: the config of a code block, the
kernel of a name, the result of writing to the error stream, and the streams
of the cobra command. -/
structure RunEnv where
  NewConfigFromCodeBlock : CodeBlock → Except Err Config
  kernelGetter : String → Except Err Kernel
  stderrWrite : Option Err
  opts : Options

/-- Function `runCodeBlock`: the config is made, the kernel's command is
started, and only after a Start that returned nil it is waited for. A panic of
either call is passed on. -/
def runCodeBlock (env : RunEnv) (kernel : Kernel) (block : CodeBlock) : Ret × List Event :=
  match env.NewConfigFromCodeBlock block with
  | .error e => (.returned (some e), [])
  | .ok cfg =>
    let kernelCmd := kernel cfg env.opts
    let started := kernelCmd.Start kernelCmd.new
    if started.1 = .returned none then
      let waited := kernelCmd.Wait started.2.1
      (waited.1, .callStart block.id :: started.2.2 ++ .callWait block.id :: waited.2.2)
    else
      (started.1, .callStart block.id :: started.2.2)

/-- The loop of `runCmd` over the tasks: the first block that does not return
nil ends the loop with its result. -/
def runTasks (env : RunEnv) (kernel : Kernel) : List Task → Ret × List Event
  | [] => (.returned none, [])
  | t :: ts =>
    let res := runCodeBlock env kernel t.CodeBlock
    if res.1 = .returned none then
      ((runTasks env kernel ts).1, res.2 ++ (runTasks env kernel ts).2)
    else
      res

/-- The function run by `runCmd`, from the list of tasks that passed the
filters on: the message for an empty list, the kernel, the loop. -/
def runCmd (env : RunEnv) (kernelName : String) (tasks : List Task) : Ret × List Event :=
  if tasks.length = 0 then
    (.returned (errors.WithStack env.stderrWrite),
      [.stderrWrite "no tasks to run\n" env.stderrWrite])
  else
    match env.kernelGetter kernelName with
    | .error e => (.returned (some e), [])
    | .ok kernel => runTasks env kernel tasks

/-- The events of running the given blocks one after the other. -/
def blockEvents (env : RunEnv) (kernel : Kernel) (ts : List Task) : List Event :=
  (ts.map (fun t => (runCodeBlock env kernel t.CodeBlock).2)).flatten

/-- A command whose Start returns nil and whose Wait returns the given error. -/
def scriptedCommand (waitErr : Option Err) : Command :=
  { State := Unit
    new := ()
    Start := fun _ => (.returned none, (), [.cmdStart none])
    Wait := fun _ => (.returned waitErr, (), [.cmdWait waitErr]) }

/-- A kernel whose command fails in Wait exactly for the program `false`. -/
def scriptedKernel : Kernel :=
  fun cfg _ =>
    scriptedCommand (if cfg.ProgramName = "false" then some (.exitError (.exited 1)) else none)

/-- Surroundings in which block 2 runs `false` and every other block `sh`. -/
def runEnvSecondFails : RunEnv :=
  { NewConfigFromCodeBlock := fun b =>
      .ok (if b.id = 2 then { cfgSh with ProgramName := "false" } else cfgSh)
    kernelGetter := fun _ => .ok scriptedKernel
    stderrWrite := none
    opts := optsNone }

/-! ## The opinionated name of an environment variable -/

/-- Regular expressions over characters, matched against a whole text. -/
inductive Regex where
  /-- Matches no text. -/
  | none
  /-- Matches the empty text. -/
  | empty
  /-- A character class. -/
  | cls (p : Char → Bool)
  | seq (a b : Regex)
  | alt (a b : Regex)
  | star (a : Regex)

/-- Whether the expression matches the empty text. -/
def Regex.nullable : Regex → Bool
  | .none => false
  | .empty => true
  | .cls _ => false
  | .seq a b => a.nullable && b.nullable
  | .alt a b => a.nullable || b.nullable
  | .star _ => true

/-- The expression for what may follow the character `c`. -/
def Regex.deriv : Regex → Char → Regex
  | .none, _ => .none
  | .empty, _ => .none
  | .cls p, c => if p c then .empty else .none
  | .seq a b, c =>
    if a.nullable then .alt (.seq (a.deriv c) b) (b.deriv c) else .seq (a.deriv c) b
  | .alt a b, c => .alt (a.deriv c) (b.deriv c)
  | .star a, c => .seq (a.deriv c) (.star a)

/-- Whether the expression matches the whole text. -/
def Regex.matches (r : Regex) : List Char → Bool
  | [] => r.nullable
  | c :: cs => (r.deriv c).matches cs

/-- The class `[A-Z]`. -/
def isUpperAZ (c : Char) : Bool := 65 ≤ c.toNat && c.toNat ≤ 90

/-- The class `[A-Z0-9_]`. -/
def isUpperDigitUnderscore (c : Char) : Bool :=
  isUpperAZ c || (48 ≤ c.toNat && c.toNat ≤ 57) || c.toNat = 95

/-- The expression of the claim, in the words of section 6 of the spec:
`^[A-Z][A-Z0-9_]{1,}$`. -/
def claimedNameRegex : Regex :=
  .seq (.cls isUpperAZ) (.seq (.cls isUpperDigitUnderscore) (.star (.cls isUpperDigitUnderscore)))

/-- Modelled from the spec: the function `conformsOpinionatedEnvVarNaming` is
not under `src/` (only its test is). Section 6 of the spec: a name is valid
iff it matches `^[A-Z][A-Z0-9_]{1,}$`. -/
def conformsOpinionatedEnvVarNaming (name : String) : Bool :=
  claimedNameRegex.matches name.toList

/-- The assertions of `Test_conformsOpinionatedEnvVarNaming`: the name and the
result the test requires. -/
def Test_conformsOpinionatedEnvVarNaming : List (String × Bool) :=
  [("TEST", true), ("ABC", true), ("TEST_ABC", true), ("ABC_123", true),
   ("test", false), ("abc", false), ("test_abc", false), ("abc_123", false),
   ("AB", false), ("T", false),
   ("123", false), ("8761123", false), ("138761123", false),
   ("ABC_%^!", false), ("&^%$", false), ("A@#$%", false)]

/-- The function that answers on the names of the test what the test requires,
and false on every other name. -/
def testedAnswer (name : String) : Bool :=
  (Test_conformsOpinionatedEnvVarNaming.lookup name).getD false

/-! ## Validation of the project directory and the filename -/

namespace filepath

/-- The elements of a path: the texts between its separators `/`. -/
def splitSlash : List Char → List (List Char)
  | [] => [[]]
  | c :: cs =>
    if c = '/' then [] :: splitSlash cs
    else
      match splitSlash cs with
      | [] => [[c]]
      | w :: ws => (c :: w) :: ws

/-- The elements joined by the separator `/`. -/
def joinSlash : List (List Char) → List Char
  | [] => []
  | [e] => e
  | e :: es => e ++ '/' :: joinSlash es

/-- The loop of `Clean` over the elements of a path, `out` holding the
elements kept so far, last one first: empty elements and `.` are dropped, `..`
removes the element before it when there is one that is not `..`, is dropped at
the root and is kept otherwise. -/
def cleanLoop (rooted : Bool) : List (List Char) → List (List Char) → List (List Char)
  | [], out => out
  | e :: es, out =>
    if e = [] ∨ e = ['.'] then cleanLoop rooted es out
    else if e = ['.', '.'] then
      match out with
      | top :: rest =>
        if top = ['.', '.'] then cleanLoop rooted es (e :: out) else cleanLoop rooted es rest
      | [] => if rooted then cleanLoop rooted es out else cleanLoop rooted es [e]
    else cleanLoop rooted es (e :: out)

/-- Function `filepath.Clean` on a Unix path. -/
def cleanChars (path : List Char) : List Char :=
  if path = [] then ['.']
  else
    let rooted := path.head? = some '/'
    let out := (cleanLoop rooted (splitSlash path) []).reverse
    let res := (if rooted then ['/'] else []) ++ joinSlash out
    if res = [] then ['.'] else res

/-- Function `filepath.Join` of two elements: the non-empty ones, separated,
and cleaned; the empty path when both are empty. -/
def joinChars (a b : List Char) : List Char :=
  if a ≠ [] then cleanChars (a ++ '/' :: b)
  else if b ≠ [] then cleanChars b
  else []

/-- The element at the start of a text and the rest of the text from the
separator that ends the element on. -/
def takeElem : List Char → List Char × List Char
  | [] => ([], [])
  | c :: cs =>
    if c = '/' then ([], c :: cs)
    else (c :: (takeElem cs).1, (takeElem cs).2)

/-- The loop of `Rel` that positions both paths at their first differing
elements: what is left of the base from `b0` on, the base element `base[b0:bi]`
and what is left of the target from `t0` on. -/
def relLoop : Nat → List Char → List Char → List Char × List Char × List Char
  | 0, b, t => (b, [], t)
  | fuel + 1, b, t =>
    if b = [] ∨ t = [] then (b, [], t)
    else
      let be := takeElem b
      let te := takeElem t
      if te.1 ≠ be.1 then (b, be.1, t)
      else relLoop fuel (be.2.drop 1) (te.2.drop 1)

/-- The text `..` followed by `seps` times `/..`. -/
def dotdots : Nat → List Char
  | 0 => ['.', '.']
  | n + 1 => dotdots n ++ ['/', '.', '.']

/-- Function `filepath.Rel` on Unix paths, for the paths that `validateConfig`
passes: a rooted base (the working directory that `os.Getwd` returns) and a
target joined onto it. Cleaned, such paths hold no `.` and no `..` element.
For a relative base with `..` elements, or a relative target that cleans to
`.`, the answer of the library is not claimed to be the one given here. -/
def relChars (basepath targpath : List Char) : Except Err (List Char) :=
  let base := cleanChars basepath
  let targ := cleanChars targpath
  if targ = base then .ok ['.']
  else
    let base := if base = ['.'] then [] else base
    let baseSlashed := base.head? = some '/'
    let targSlashed := targ.head? = some '/'
    if baseSlashed ≠ targSlashed then .error (.sentinel "Rel: can't make relative")
    else
      let pos := relLoop (base.length + 1) base targ
      if pos.2.1 = ['.', '.'] then .error (.sentinel "Rel: can't make relative")
      else if pos.1 ≠ [] then
        let seps := pos.1.count '/'
        .ok (dotdots seps ++ (if pos.2.2 ≠ [] then '/' :: pos.2.2 else []))
      else .ok pos.2.2

/-- Function `filepath.Join` of two elements. -/
def Join (a b : String) : String := String.mk (joinChars a.toList b.toList)

/-- Function `filepath.Rel`. -/
def Rel (basepath targpath : String) : Except Err String :=
  match relChars basepath.toList targpath.toList with
  | .error e => .error e
  | .ok rel => .ok (String.mk rel)

end filepath

/-- Function `strings.HasPrefix`. -/
def strings.HasPrefix (s pre : String) : Bool := pre.toList.isPrefixOf s.toList

namespace config

/-- A kernel of the configuration: `LocalKernel` or `DockerKernel`. -/
inductive Kernel where
  | LocalKernel (Name : String)
  | DockerKernel (Context : String) (Dockerfile : String) (Image : String) (Name : String)
  deriving DecidableEq

/-- The fields of `config.Config` that the validation reads, and the kernels. -/
structure Config where
  ProjectDir : String
  Filename : String
  Kernels : List Kernel := []
  deriving DecidableEq

/-- Function `validateProjectDir`. -/
def validateProjectDir (cfg : Config) (cwd : String) : Option Err :=
  match filepath.Rel cwd (filepath.Join cwd cfg.ProjectDir) with
  | .error e => errors.WithStack (some e)
  | .ok rel =>
    if strings.HasPrefix rel ".." then some (.sentinel "outside of current working directory")
    else none

/-- Function `validateFilename`. -/
def validateFilename (cfg : Config) (cwd : String) : Option Err :=
  match filepath.Rel cwd (filepath.Join cwd cfg.Filename) with
  | .error e => errors.WithStack (some e)
  | .ok rel =>
    if strings.HasPrefix rel ".." then some (.sentinel "outside of current working directory")
    else none

end config

/-! ## Kernels making Native and Virtual commands -/

/-- A kernel whose command is a NativeCommand. -/
def nativeKernel (sys : Sys) : Kernel :=
  fun cfg opts =>
    { State := NativeCommand
      new := NewNative cfg opts
      Start := fun s =>
        ((NativeCommand.Start sys s []).ret, (NativeCommand.Start sys s []).state,
          (NativeCommand.Start sys s []).trace)
      Wait := fun s =>
        ((NativeCommand.Wait sys s []).ret, (NativeCommand.Wait sys s []).state,
          (NativeCommand.Wait sys s []).trace) }

/-- A kernel whose command is a VirtualCommand. -/
def virtualKernel (sys : Sys) : Kernel :=
  fun cfg opts =>
    { State := VirtualCommand
      new := NewVirtual cfg opts
      Start := fun s =>
        ((VirtualCommand.Start sys s []).ret, (VirtualCommand.Start sys s []).state,
          (VirtualCommand.Start sys s []).trace)
      Wait := fun s =>
        ((VirtualCommand.Wait sys s []).ret, (VirtualCommand.Wait sys s []).state,
          (VirtualCommand.Wait sys s []).trace) }

/-- A system in which normalization registers one cleanup callback and the
child cannot be created. -/
def sysCleanupThenStartFails : Sys :=
  { sysStartFails with normalizeConfig := fun cfg => .ok (cfg, [cleanOk]) }

/-- Surroundings in which every block runs `sh`. -/
def runEnvSh : RunEnv :=
  { NewConfigFromCodeBlock := fun _ => .ok cfgSh
    kernelGetter := fun _ => .ok scriptedKernel
    stderrWrite := none
    opts := optsNone }

/-! ## ParseYAML -/

/-- Function `errors.Wrap` on an error that is not nil. -/
def errors.wrapNonNil (e : Err) (msg : String) : Err :=
  .wrap .stack (.wrap (.message msg) e)

/-- Function `errors.Errorf`: a new error with the formatted text. -/
def errors.Errorf (text : String) : Err := .sentinel text

namespace config

/-- The message inside an entry of `kernels`, as `UnmarshalNew` returns it: a
local kernel, a docker kernel, or a message of another type with its full
name. -/
inductive KernelMessage where
  | localKernel (name : String)
  | dockerKernel (context : String) (dockerfile : String) (image : String) (name : String)
  | other (fullName : String)
  deriving DecidableEq

/-- An entry of `kernels` (an `anypb.Any`): the result of its `UnmarshalNew`. -/
structure AnyKernel where
  UnmarshalNew : Except Err KernelMessage

/-- The fields of the message `configv1alpha1.Config` that the conversion
copies to the fields kept in `Config`. -/
structure ProtoConfig where
  ProjectDir : String
  Filename : String
  Kernels : List AnyKernel

/-- A YAML mapping decoded to its top-level keys with their values. -/
abbrev YamlMap := List (String × String)

/-- The libraries and the operating system as `ParseYAML` uses them. -/
structure Env where
  /-- Function `yaml.Unmarshal` into `versionOnly`: the field `Version`. -/
  unmarshalVersion : String → Except Err String
  /-- Function `yaml.Unmarshal` into a map. -/
  unmarshalMap : String → Except Err YamlMap
  /-- Function `json.Marshal` of the map. -/
  jsonMarshal : YamlMap → Except Err String
  /-- Function `protojson.Unmarshal` into the message. -/
  protojsonUnmarshal : String → Except Err ProtoConfig
  /-- Function `protovalidate.New`: its error. -/
  protovalidateNew : Option Err
  /-- Method `Validate` of the validator. -/
  validate : ProtoConfig → Option Err
  /-- Function `os.Getwd`. -/
  getwd : Except Err String

/-- Function `parseVersionFromYAML`. -/
def parseVersionFromYAML (env : Env) (data : String) : Except Err String :=
  match env.unmarshalVersion data with
  | .error e => .error (errors.wrapNonNil e "failed to unmarshal version")
  | .ok version => .ok version

/-- Function `parseYAMLv1alpha1`: YAML to a map, the key `version` deleted,
the map to JSON, JSON to the message. -/
def parseYAMLv1alpha1 (env : Env) (data : String) : Except Err ProtoConfig :=
  match env.unmarshalMap data with
  | .error e => .error (errors.wrapNonNil e "failed to unmarshal yaml")
  | .ok mmap =>
    match env.jsonMarshal (mmap.filter (fun kv => kv.1 ≠ "version")) with
    | .error e => .error (errors.wrapNonNil e "failed to marshal yaml to json")
    | .ok configJSONRaw =>
      match env.protojsonUnmarshal configJSONRaw with
      | .error e => .error (errors.wrapNonNil e "failed to unmarshal json to proto")
      | .ok cfg => .ok cfg

/-- Function `validateProto`. -/
def validateProto (env : Env) (m : ProtoConfig) : Option Err :=
  match env.protovalidateNew with
  | some e => errors.WithStack (some e)
  | none => errors.WithStack (env.validate m)

/-- The loop of `configV1alpha1ToConfig` over the kernels, `kernels` holding
the ones converted so far. -/
def convertKernels : List AnyKernel → List Kernel → Except Err (List Kernel)
  | [], kernels => .ok kernels
  | k :: ks, kernels =>
    match k.UnmarshalNew with
    | .error e => .error (errors.wrapNonNil e "failed to unmarshal kernel")
    | .ok (.localKernel name) => convertKernels ks (kernels ++ [.LocalKernel name])
    | .ok (.dockerKernel context dockerfile image name) =>
      convertKernels ks (kernels ++ [.DockerKernel context dockerfile image name])
    | .ok (.other fullName) => .error (errors.Errorf ("unknown kernel type: " ++ fullName))

/-- Function `configV1alpha1ToConfig`. -/
def configV1alpha1ToConfig (c : ProtoConfig) : Except Err Config :=
  match convertKernels c.Kernels [] with
  | .error e => .error e
  | .ok kernels =>
    .ok { ProjectDir := c.ProjectDir, Filename := c.Filename, Kernels := kernels }

/-- Function `validateConfig`: the working directory is `.` when it cannot be
read. -/
def validateConfig (env : Env) (cfg : Config) : Option Err :=
  let cwd :=
    match env.getwd with
    | .error _ => "."
    | .ok dir => dir
  match validateProjectDir cfg cwd with
  | some e => errors.Wrap (some e) "failed to validate project dir"
  | none =>
    match validateFilename cfg cwd with
    | some e => errors.Wrap (some e) "failed to validate filename"
    | none => none

/-- Function `ParseYAML`: the error case stands for `(nil, err)`, the other
case for `(config, nil)`. -/
def ParseYAML (env : Env) (data : String) : Except Err Config :=
  match parseVersionFromYAML env data with
  | .error e => .error e
  | .ok version =>
    if version = "v1alpha1" then
      match parseYAMLv1alpha1 env data with
      | .error e => .error e
      | .ok cfg =>
        match validateProto env cfg with
        | some e => .error (errors.wrapNonNil e "failed to validate v1alpha1 config")
        | none =>
          match configV1alpha1ToConfig cfg with
          | .error e => .error (errors.wrapNonNil e "failed to convert v1alpha1 config")
          | .ok config =>
            match validateConfig env config with
            | some e => .error (errors.wrapNonNil e "failed to validate config")
            | none => .ok config
    else .error (errors.Errorf ("unknown version: " ++ version))

/-- Libraries reading a document with the given version, project directory
and kernels, in the working directory `/work`; every call succeeds. -/
def envOf (version dir : String) (kernels : List AnyKernel) : Env :=
  { unmarshalVersion := fun _ => .ok version
    unmarshalMap := fun _ => .ok [("version", version), ("project", dir)]
    jsonMarshal := fun _ => .ok "{}"
    protojsonUnmarshal := fun _ => .ok { ProjectDir := dir, Filename := "", Kernels := kernels }
    protovalidateNew := none
    validate := fun _ => none
    getwd := .ok "/work" }

/-- Libraries reading a document whose version field is a sequence: decoding
it into the text field of `versionOnly` fails. -/
def envVersionNotText : Env :=
  { envOf "" "sub" [] with
    unmarshalVersion := fun _ =>
      .error (.sentinel "yaml: unmarshal errors: cannot unmarshal !!seq into string") }

/-- Libraries reading a `v1alpha1` document with a key the message does not
have: decoding the JSON into the message fails. -/
def envBodyNotMessage : Env :=
  { envOf "v1alpha1" "sub" [] with
    protojsonUnmarshal := fun _ => .error (.sentinel "proto: unknown field \"nokey\"") }

end config

/-! ## Theorems -/

/-! ### Signal delivery -/

/-- C1. A started NativeCommand delivers a signal by a sublist of the three
attempts group, process, kill, in that order: the group attempt is made iff
`SignalToProcessGroup` is set, each later attempt is made iff every earlier
attempt that was made failed, and every attempt but the last one failed. The
call returns and leaves the command as it was. -/
theorem C1_native_signal_order (g : Globals) (sys : Sys) (c : NativeCommand) (cmd : exec.Cmd)
    (p : os.Process) (sig : os.Signal) (tr : List Event)
    (hcmd : c.cmd = some cmd) (hproc : cmd.Process = some p) :
    ∃ attempts : List Event,
      (NativeCommand.Signal g sys c sig tr).trace = tr ++ attempts ∧
      (NativeCommand.Signal g sys c sig tr).state = c ∧
      (NativeCommand.Signal g sys c sig tr).ret ≠ .panicked ∧
      attempts.Sublist
        [.signalPgid p.Pid sig (sys.signalPgid p.Pid sig),
         .processSignal p.Pid sig (sys.processSignal p.Pid sig),
         .processKill p.Pid (sys.processKill p.Pid)] ∧
      (Event.signalPgid p.Pid sig (sys.signalPgid p.Pid sig) ∈ attempts ↔
        g.SignalToProcessGroup = true) ∧
      (Event.processSignal p.Pid sig (sys.processSignal p.Pid sig) ∈ attempts ↔
        (Event.signalPgid p.Pid sig (sys.signalPgid p.Pid sig) ∈ attempts →
          sys.signalPgid p.Pid sig ≠ none)) ∧
      (Event.processKill p.Pid (sys.processKill p.Pid) ∈ attempts ↔
        ((Event.signalPgid p.Pid sig (sys.signalPgid p.Pid sig) ∈ attempts →
            sys.signalPgid p.Pid sig ≠ none) ∧
          (Event.processSignal p.Pid sig (sys.processSignal p.Pid sig) ∈ attempts →
            sys.processSignal p.Pid sig ≠ none))) ∧
      (∀ e ∈ attempts.dropLast, e.res ≠ none) := by
  unfold NativeCommand.Signal
  simp only [hcmd, hproc]
  cases hg : g.SignalToProcessGroup <;>
    cases hG : sys.signalPgid p.Pid sig <;>
    cases hS : sys.processSignal p.Pid sig <;>
    cases hK : sys.processKill p.Pid <;>
    simp [Event.res]

/-- Witness of C1: toggle set, the group signal fails, the process signal succeeds. -/
theorem C1_native_signal_order_witness :
    nativeStarted.cmd = some cmdStarted ∧ cmdStarted.Process = some ⟨4242⟩ ∧
    ∃ attempts : List Event,
      (NativeCommand.Signal ⟨true⟩ sysGroupFails nativeStarted 2 []).trace = [] ++ attempts ∧
      attempts.Sublist
        [.signalPgid 4242 2 (sysGroupFails.signalPgid 4242 2),
         .processSignal 4242 2 (sysGroupFails.processSignal 4242 2),
         .processKill 4242 (sysGroupFails.processKill 4242)] :=
  ⟨rfl, rfl,
    (C1_native_signal_order ⟨true⟩ sysGroupFails nativeStarted cmdStarted ⟨4242⟩ 2 [] rfl rfl).imp
      (fun _ h => ⟨h.1, h.2.2.2.1⟩)⟩

/-- C2. Signal of a VirtualCommand returns what Signal of a NativeCommand on
the same child returns with process-group signaling enabled, after the same
attempts, whatever the value of `SignalToProcessGroup`; on a started command
the first attempt is the signal to the process group. -/
theorem C2_virtual_signal_refines_native (g : Globals) (sys : Sys) (vc : VirtualCommand)
    (nc : NativeCommand) (sig : os.Signal) (tr : List Event) (h : vc.cmd = nc.cmd) :
    (VirtualCommand.Signal g sys vc sig tr).ret =
        (NativeCommand.Signal ⟨true⟩ sys nc sig tr).ret ∧
      (VirtualCommand.Signal g sys vc sig tr).trace =
        (NativeCommand.Signal ⟨true⟩ sys nc sig tr).trace ∧
      (VirtualCommand.Signal g sys vc sig tr).state = vc ∧
      (∀ cmd p, vc.cmd = some cmd → cmd.Process = some p →
        ∃ rest, (VirtualCommand.Signal g sys vc sig tr).trace =
          tr ++ Event.signalPgid p.Pid sig (sys.signalPgid p.Pid sig) :: rest) := by
  unfold VirtualCommand.Signal NativeCommand.Signal
  rw [← h]
  cases hc : vc.cmd with
  | none => simp
  | some cmd =>
    cases hp : cmd.Process with
    | none =>
      simp only [hp]
      refine ⟨by simp, by simp, by simp, ?_⟩
      intro cmd2 p2 h1 h2
      cases h1
      rw [hp] at h2
      cases h2
    | some p =>
      have hlast : ∀ (cmd2 : exec.Cmd) (p2 : os.Process), some cmd = some cmd2 →
          cmd2.Process = some p2 → p2 = p := by
        intro cmd2 p2 h1 h2
        cases h1
        rw [hp] at h2
        exact (Option.some.inj h2).symm
      cases hG : sys.signalPgid p.Pid sig <;>
        cases hS : sys.processSignal p.Pid sig <;>
        cases hK : sys.processKill p.Pid <;>
        simp only [hp, hG, hS, hK] <;>
        refine ⟨by simp, by simp, by simp, ?_⟩ <;>
        intro cmd2 p2 h1 h2 <;>
        rw [hlast cmd2 p2 h1 h2] <;>
        simp [hG]

/-- Witness of C2: the toggle is off, the group is signalled all the same. -/
theorem C2_virtual_signal_refines_native_witness :
    virtualStarted.cmd = nativeStarted.cmd ∧
    (VirtualCommand.Signal ⟨false⟩ sysOk virtualStarted 2 []).trace =
      (NativeCommand.Signal ⟨true⟩ sysOk nativeStarted 2 []).trace ∧
    (VirtualCommand.Signal ⟨false⟩ sysOk virtualStarted 2 []).trace =
      [.signalPgid 4242 2 none] :=
  ⟨rfl,
    (C2_virtual_signal_refines_native ⟨false⟩ sysOk virtualStarted nativeStarted 2 [] rfl).2.1,
    by decide⟩

/-! ### Wait and the cleanup callbacks -/

theorem cleanupLoop_trace (fns : List CleanFunc) (err : Option Err) (tr : List Event) :
    (cleanupLoop fns err tr).2 = tr ++ cleanEvents fns := by
  induction fns generalizing err tr with
  | nil => simp [cleanupLoop, cleanEvents]
  | cons fn fns ih =>
    simp only [cleanupLoop]
    rw [ih]
    simp [cleanEvents]

theorem cleanupLoop_all_nil (fns : List CleanFunc) (err : Option Err) (tr : List Event)
    (h : ∀ fn ∈ fns, fn.result = none) : (cleanupLoop fns err tr).1 = err := by
  induction fns generalizing err tr with
  | nil => simp [cleanupLoop]
  | cons fn fns ih =>
    simp only [cleanupLoop]
    rw [ih _ _ (fun f hf => h f (List.mem_cons_of_mem _ hf))]
    simp [h fn (List.mem_cons_self _ _)]

theorem setErr_fields (c : VirtualCommand) (err : Option Err) :
    c.setErr err = { c with err := (c.setErr err).err } := by
  unfold VirtualCommand.setErr
  split
  · rfl
  · split <;> rfl

theorem pumpDone_fields (sys : Sys) (c : VirtualCommand) (p : Pump) :
    VirtualCommand.pumpDone sys c p = { c with err := ( VirtualCommand.pumpDone sys c p).err } := by
  cases p
  · simp only [VirtualCommand.pumpDone, VirtualCommand.stdinPump]
    split
    · exact setErr_fields c _
    · rfl
  · simp only [VirtualCommand.pumpDone, VirtualCommand.outputPump]
    split
    · split
      · rfl
      · split
        · rfl
        · exact setErr_fields c _
    · rfl

theorem foldl_pumpDone_fields (sys : Sys) (ps : List Pump) (c : VirtualCommand) :
    ps.foldl ( VirtualCommand.pumpDone sys) c =
      { c with err := (ps.foldl ( VirtualCommand.pumpDone sys) c).err } := by
  induction ps generalizing c with
  | nil => rfl
  | cons p ps ih =>
    simp only [List.foldl_cons]
    rw [ih]
    rw [pumpDone_fields sys c p]

theorem wgWait_cleanFuncs (sys : Sys) (c : VirtualCommand) (tr : List Event) :
    ( VirtualCommand.wgWait sys c tr).1.cleanFuncs = c.cleanFuncs := by
  unfold VirtualCommand.wgWait
  simp only []
  rw [foldl_pumpDone_fields]

theorem wgWait_trace (sys : Sys) (c : VirtualCommand) (tr : List Event) :
    ( VirtualCommand.wgWait sys c tr).2 = tr ++ [.wgWait] := rfl

theorem closeIO_no_stdin (sys : Sys) (c : VirtualCommand) (tr : List Event)
    (h : c.stdin = none) :
    VirtualCommand.closeIO sys c tr =
      (some (if (ttyCloseResult sys c.tty).isSome then
          multierr.Append none
            (errors.WithMessage (ttyCloseResult sys c.tty) "failed to close tty")
        else none),
        c, tr ++ [.ttyClose (ttyCloseResult sys c.tty)]) := by
  unfold VirtualCommand.closeIO
  simp only [h]

theorem closeIO_open_stdin (sys : Sys) (c : VirtualCommand) (tr : List Event)
    (r : readCloser) (h : c.stdin = some r) (hd : r.done = false) :
    VirtualCommand.closeIO sys c tr =
      (some (if (ttyCloseResult sys c.tty).isSome then
          multierr.Append none
            (errors.WithMessage (ttyCloseResult sys c.tty) "failed to close tty")
        else none),
        { c with stdin := some { r with done := true } },
        tr ++ [.stdinClose none, .ttyClose (ttyCloseResult sys c.tty)]) := by
  unfold VirtualCommand.closeIO
  simp [h, readCloser.Close, hd]

theorem closeIO_closed_stdin (sys : Sys) (c : VirtualCommand) (tr : List Event)
    (r : readCloser) (h : c.stdin = some r) (hd : r.done = true) :
    VirtualCommand.closeIO sys c tr = (none, c, tr) := by
  unfold VirtualCommand.closeIO
  simp [h, readCloser.Close, hd]

theorem native_wait_trace (sys : Sys) (c : NativeCommand) (tr : List Event) (cmd : exec.Cmd)
    (h : c.cmd = some cmd) :
    (NativeCommand.Wait sys c tr).trace =
      tr ++ [.cmdWait (exec.Cmd.Wait sys cmd).2] ++ cleanEvents c.cleanFuncs := by
  unfold NativeCommand.Wait
  simp only [h, NativeCommand.cleanup]
  rw [cleanupLoop_trace]

theorem virtual_wait_trace (sys : Sys) (c : VirtualCommand) (tr : List Event) (cmd : exec.Cmd)
    (h : c.cmd = some cmd) :
    (VirtualCommand.Wait sys c tr).trace =
      tr ++ [.cmdWait (exec.Cmd.Wait sys cmd).2] ++
        (match c.stdin with
          | none => [.ttyClose (ttyCloseResult sys c.tty), .wgWait]
          | some r =>
            if r.done then []
            else [.stdinClose none, .ttyClose (ttyCloseResult sys c.tty), .wgWait]) ++
        cleanEvents c.cleanFuncs := by
  unfold VirtualCommand.Wait
  simp only [h]
  generalize hc1 : ({ c with cmd := some (exec.Cmd.Wait sys cmd).1 } : VirtualCommand) = c1
  have hs1 : c1.stdin = c.stdin := by rw [← hc1]
  have ht1 : c1.tty = c.tty := by rw [← hc1]
  have hf1 : c1.cleanFuncs = c.cleanFuncs := by rw [← hc1]
  rw [← hs1, ← ht1, ← hf1]
  cases hs : c1.stdin with
  | none =>
    rw [closeIO_no_stdin sys c1 _ hs]
    simp only [VirtualCommand.cleanup]
    rw [cleanupLoop_trace, wgWait_trace, wgWait_cleanFuncs]
    simp
  | some r =>
    cases hd : r.done with
    | false =>
      rw [closeIO_open_stdin sys c1 _ r hs hd]
      simp only [VirtualCommand.cleanup]
      rw [cleanupLoop_trace, wgWait_trace, wgWait_cleanFuncs]
      simp [hd]
    | true =>
      rw [closeIO_closed_stdin sys c1 _ r hs hd]
      simp only [VirtualCommand.cleanup]
      rw [cleanupLoop_trace]
      simp [hd]

/-- C3. Wait of a started command, Native or Virtual, first waits for the
child and then calls every registered cleanup callback exactly once, in
registration order, as the last effects of the call: whatever the child's wait
returned and whatever the callbacks return. -/
theorem C3_wait_runs_cleanups_in_order (sys : Sys) (nc : NativeCommand) (vc : VirtualCommand)
    (tr : List Event) (ncmd vcmd : exec.Cmd) (hn : nc.cmd = some ncmd)
    (hv : vc.cmd = some vcmd) :
    (∃ pre : List Event,
      (NativeCommand.Wait sys nc tr).trace = tr ++ pre ++ cleanEvents nc.cleanFuncs ∧
      pre.head? = some (.cmdWait (exec.Cmd.Wait sys ncmd).2) ∧
      ∀ id res, Event.cleanFunc id res ∉ pre) ∧
    (∃ pre : List Event,
      (VirtualCommand.Wait sys vc tr).trace = tr ++ pre ++ cleanEvents vc.cleanFuncs ∧
      pre.head? = some (.cmdWait (exec.Cmd.Wait sys vcmd).2) ∧
      ∀ id res, Event.cleanFunc id res ∉ pre) := by
  constructor
  · exact ⟨[.cmdWait (exec.Cmd.Wait sys ncmd).2], native_wait_trace sys nc tr ncmd hn, rfl,
      by simp⟩
  · rw [virtual_wait_trace sys vc tr vcmd hv]
    cases hs : vc.stdin with
    | none =>
      exact ⟨[.cmdWait (exec.Cmd.Wait sys vcmd).2, .ttyClose (ttyCloseResult sys vc.tty),
        .wgWait], by simp, rfl, by simp⟩
    | some r =>
      cases hd : r.done with
      | false =>
        exact ⟨[.cmdWait (exec.Cmd.Wait sys vcmd).2, .stdinClose none,
          .ttyClose (ttyCloseResult sys vc.tty), .wgWait], by simp [hd], rfl, by simp⟩
      | true =>
        exact ⟨[.cmdWait (exec.Cmd.Wait sys vcmd).2], by simp [hd], rfl, by simp⟩

/-- Witness of C3: the child of the Native command exits with status 1, the
second callback of either command fails. -/
theorem C3_wait_runs_cleanups_in_order_witness :
    nativeStarted.cmd = some cmdStarted ∧ virtualStarted.cmd = some cmdStarted ∧
    (NativeCommand.Wait sysExitOne nativeStarted []).trace =
      [.cmdWait (some (.exitError (.exited 1))), .cleanFunc 1 none,
        .cleanFunc 2 (some (.sentinel "remove failed"))] ∧
    ∃ pre : List Event,
      (VirtualCommand.Wait sysExitOne virtualStarted []).trace =
        [] ++ pre ++ cleanEvents virtualStarted.cleanFuncs ∧
      pre.head? = some (.cmdWait (exec.Cmd.Wait sysExitOne cmdStarted).2) ∧
      ∀ id res, Event.cleanFunc id res ∉ pre :=
  ⟨rfl, rfl, by decide,
    (C3_wait_runs_cleanups_in_order sysExitOne nativeStarted virtualStarted [] cmdStarted
      cmdStarted rfl rfl).2⟩

theorem cleanupLoop_err_indep (fns : List CleanFunc) (err : Option Err) (tr tr2 : List Event) :
    (cleanupLoop fns err tr).1 = (cleanupLoop fns err tr2).1 := by
  induction fns generalizing err tr tr2 with
  | nil => rfl
  | cons fn fns ih =>
    simp only [cleanupLoop]
    exact ih _ _ _

/-- C4 fails as stated: the child exits with status 1 and the second cleanup
callback fails, and Wait returns the exit error alone; the cleanup error is
not reachable from it. -/
theorem C4_counterexample :
    (exec.Cmd.Wait sysExitOne cmdStarted).2 = some (.exitError (.exited 1)) ∧
    (nativeStarted.cleanup []).1 = some (.sentinel "remove failed") ∧
    (NativeCommand.Wait sysExitOne nativeStarted []).ret =
      .returned (some (.wrap .stack (.exitError (.exited 1)))) ∧
    errors.Is (some (.wrap .stack (.exitError (.exited 1)))) (.sentinel "remove failed")
      = false ∧
    multierr.Errors (.wrap .stack (.exitError (.exited 1))) =
      [.wrap .stack (.exitError (.exited 1))] := by
  decide

/-- C4 as amended. Wait of a started NativeCommand returns the first non-nil
error of the child's wait and of cleanup, each with a stack attached: when the
child's wait returns an error, Wait returns that error whatever cleanup
returns, and the cleanup error is returned only when the child's wait returned
nil. -/
theorem C4_native_wait_returns_first_error (sys : Sys) (c : NativeCommand) (tr : List Event)
    (cmd : exec.Cmd) (h : c.cmd = some cmd) :
    ((exec.Cmd.Wait sys cmd).2 ≠ none →
      (NativeCommand.Wait sys c tr).ret =
        .returned (errors.WithStack (exec.Cmd.Wait sys cmd).2)) ∧
    ((exec.Cmd.Wait sys cmd).2 = none →
      (NativeCommand.Wait sys c tr).ret = .returned (errors.WithStack (c.cleanup []).1)) := by
  unfold NativeCommand.Wait
  simp only [h, NativeCommand.cleanup]
  rw [cleanupLoop_err_indep c.cleanFuncs none _ []]
  constructor
  · intro hne
    cases hw : (exec.Cmd.Wait sys cmd).2 with
    | none => exact absurd hw hne
    | some e => simp [errors.WithStack]
  · intro hnil
    rw [hnil]
    cases hcl : (cleanupLoop c.cleanFuncs none []).1 <;> simp [errors.WithStack]

/-- Witness of C4 as amended: the child's exit error is returned, the cleanup
error is not. -/
theorem C4_native_wait_returns_first_error_witness :
    nativeStarted.cmd = some cmdStarted ∧
    (exec.Cmd.Wait sysExitOne cmdStarted).2 ≠ none ∧
    (NativeCommand.Wait sysExitOne nativeStarted []).ret =
      .returned (errors.WithStack (exec.Cmd.Wait sysExitOne cmdStarted).2) :=
  ⟨rfl, by decide,
    (C4_native_wait_returns_first_error sysExitOne nativeStarted [] cmdStarted rfl).1
      (by decide)⟩

theorem setErr_err (c : VirtualCommand) (err : Option Err) :
    (c.setErr err).err = if err.isNone then c.err else if c.err.isNone then err else c.err := by
  unfold VirtualCommand.setErr
  split
  · rfl
  · split <;> rfl

theorem pumpDone_err_congr (sys : Sys) (c d : VirtualCommand) (p : Pump) (h : c.err = d.err) :
    ( VirtualCommand.pumpDone sys c p).err = ( VirtualCommand.pumpDone sys d p).err := by
  cases p
  · simp only [VirtualCommand.pumpDone, VirtualCommand.stdinPump]
    split
    · rw [setErr_err, setErr_err, h]
    · exact h
  · simp only [VirtualCommand.pumpDone, VirtualCommand.outputPump]
    split
    · split
      · exact h
      · split
        · exact h
        · rw [setErr_err, setErr_err, h]
    · exact h

theorem foldl_pumpDone_err_congr (sys : Sys) (ps : List Pump) (c d : VirtualCommand)
    (h : c.err = d.err) :
    (ps.foldl ( VirtualCommand.pumpDone sys) c).err =
      (ps.foldl ( VirtualCommand.pumpDone sys) d).err := by
  induction ps generalizing c d with
  | nil => exact h
  | cons p ps ih =>
    simp only [List.foldl_cons]
    exact ih _ _ (pumpDone_err_congr sys c d p h)

theorem wgWait_err_congr (sys : Sys) (c d : VirtualCommand) (tr tr2 : List Event)
    (hwg : c.wg = d.wg) (h : c.err = d.err) :
    ( VirtualCommand.wgWait sys c tr).1.err = ( VirtualCommand.wgWait sys d tr2).1.err := by
  unfold VirtualCommand.wgWait
  simp only [hwg]
  exact foldl_pumpDone_err_congr sys _ c d h

/-- C5 fails as stated: the child exits with status 0, closing the adapter and
the slave succeeds, no pump stored an error, and Wait returns the error of the
failing cleanup callback. -/
theorem C5_counterexample :
    (exec.Cmd.Wait sysOk cmdStarted).2 = none ∧
    ( VirtualCommand.closeIO sysOk virtualStarted []).1 = some none ∧
    ( VirtualCommand.wgWait sysOk virtualStarted []).1.err = none ∧
    (VirtualCommand.Wait sysOk virtualStarted []).ret =
      .returned (some (.wrap .stack (.sentinel "remove failed"))) := by
  decide

/-- C5 as amended. When the child's exit error, the error of `closeIO`, the
error slot after the pumps are joined and the error of every cleanup callback
are nil, Wait of a VirtualCommand returns nil. -/
theorem C5_virtual_wait_nil (sys : Sys) (c : VirtualCommand) (tr : List Event) (cmd : exec.Cmd)
    (hcmd : c.cmd = some cmd)
    (hchild : (exec.Cmd.Wait sys cmd).2 = none)
    (hio : ( VirtualCommand.closeIO sys c tr).1 = some none)
    (hpump : ( VirtualCommand.wgWait sys c tr).1.err = none)
    (hclean : ∀ fn ∈ c.cleanFuncs, fn.result = none) :
    (VirtualCommand.Wait sys c tr).ret = .returned none := by
  unfold VirtualCommand.Wait
  simp only [hcmd, hchild]
  generalize hc1 : ({ c with cmd := some (exec.Cmd.Wait sys cmd).1 } : VirtualCommand) = c1
  have hs1 : c1.stdin = c.stdin := by rw [← hc1]
  have ht1 : c1.tty = c.tty := by rw [← hc1]
  have hf1 : c1.cleanFuncs = c.cleanFuncs := by rw [← hc1]
  have hw1 : c1.wg = c.wg := by rw [← hc1]
  have he1 : c1.err = c.err := by rw [← hc1]
  have key : ∀ (c2 : VirtualCommand) (tr2 : List Event), c2.wg = c.wg → c2.err = c.err →
      ( VirtualCommand.wgWait sys c2 tr2).1.err = none :=
    fun c2 tr2 h1 h2 => (wgWait_err_congr sys c2 c tr2 tr h1 h2).trans hpump
  cases hs : c.stdin with
  | none =>
    rw [closeIO_no_stdin sys c tr hs] at hio
    rw [closeIO_no_stdin sys c1 _ (hs1.trans hs), ht1]
    simp only [Option.some.injEq] at hio
    simp only [hio, VirtualCommand.cleanup]
    rw [key _ _ hw1 he1, cleanupLoop_all_nil]
    · simp [errors.WithStack]
    · rw [wgWait_cleanFuncs, hf1]; exact hclean
  | some r =>
    cases hd : r.done with
    | false =>
      rw [closeIO_open_stdin sys c tr r hs hd] at hio
      rw [closeIO_open_stdin sys c1 _ r (hs1.trans hs) hd, ht1]
      simp only [Option.some.injEq] at hio
      simp only [hio, VirtualCommand.cleanup]
      rw [key, cleanupLoop_all_nil]
      · simp [errors.WithStack]
      · rw [wgWait_cleanFuncs]; simpa [hf1] using hclean
      · exact hw1
      · exact he1
    | true =>
      rw [closeIO_closed_stdin sys c tr r hs hd] at hio
      cases hio

/-- Witness of C5 as amended: a started VirtualCommand whose callbacks succeed. -/
theorem C5_virtual_wait_nil_witness :
    (VirtualCommand.Wait sysOk { virtualStarted with cleanFuncs := [cleanOk] } []).ret =
      .returned none :=
  C5_virtual_wait_nil sysOk { virtualStarted with cleanFuncs := [cleanOk] } [] cmdStarted
    rfl (by decide) (by decide) (by decide) (by decide)

/-! ### Running and the PTY -/

/-- C6 at the failing input: the child of a new command cannot be created,
Start returns the error, no process exists (Pid is 0), and Running is true,
for the Native and for the Virtual command. -/
theorem C6_running_true_after_failed_start :
    (NativeCommand.Start sysStartFails (NewNative cfgSh optsNone) []).ret =
      .returned (some (.wrap .stack (.wrap (.path "chdir" "/nowhere") syscall.ENOENT))) ∧
    (NativeCommand.Start sysStartFails (NewNative cfgSh optsNone) []).state.Running = true ∧
    (NativeCommand.Start sysStartFails (NewNative cfgSh optsNone) []).state.Pid = 0 ∧
    (VirtualCommand.Start sysStartFails (NewVirtual cfgSh optsNone) []).ret =
      .returned (some (.wrap .stack (.wrap (.path "chdir" "/nowhere") syscall.ENOENT))) ∧
    (VirtualCommand.Start sysStartFails (NewVirtual cfgSh optsNone) []).state.Running = true ∧
    (VirtualCommand.Start sysStartFails (NewVirtual cfgSh optsNone) []).state.Pid = 0 := by
  decide

theorem wgWait_pty (sys : Sys) (c : VirtualCommand) (tr : List Event) :
    ( VirtualCommand.wgWait sys c tr).1.pty = c.pty := by
  unfold VirtualCommand.wgWait
  simp only []
  rw [foldl_pumpDone_fields]

/-- C7. Wait of a started VirtualCommand whose stdin adapter, if it has one,
is still open performs these effects and no others, in this order: wait for
the child, close the stdin adapter (when there is one), close the slave, join
the pumps on the wait-group, call the cleanup callbacks. The master is not
closed by Wait: no step closes it and the field `pty` is unchanged. -/
theorem C7_virtual_wait_step_order (sys : Sys) (c : VirtualCommand) (tr : List Event)
    (cmd : exec.Cmd) (hcmd : c.cmd = some cmd)
    (hopen : ∀ r, c.stdin = some r → r.done = false) :
    (VirtualCommand.Wait sys c tr).trace =
      tr ++ [.cmdWait (exec.Cmd.Wait sys cmd).2] ++
        (if c.stdin.isSome then [.stdinClose none] else []) ++
        [.ttyClose (ttyCloseResult sys c.tty), .wgWait] ++ cleanEvents c.cleanFuncs ∧
    (∀ res, Event.ptyClose res ∉
      [Event.cmdWait (exec.Cmd.Wait sys cmd).2] ++
        (if c.stdin.isSome then [.stdinClose none] else []) ++
        [.ttyClose (ttyCloseResult sys c.tty), .wgWait] ++ cleanEvents c.cleanFuncs) ∧
    (VirtualCommand.Wait sys c tr).state.pty = c.pty ∧
    (VirtualCommand.Wait sys c tr).ret ≠ .panicked := by
  refine ⟨?_, ?_, ?_, ?_⟩
  · rw [virtual_wait_trace sys c tr cmd hcmd]
    cases hs : c.stdin with
    | none => simp
    | some r => simp [hopen r hs]
  · intro res
    cases hs : c.stdin <;> simp [cleanEvents]
  · unfold VirtualCommand.Wait
    simp only [hcmd]
    generalize hc1 : ({ c with cmd := some (exec.Cmd.Wait sys cmd).1 } : VirtualCommand) = c1
    have hs1 : c1.stdin = c.stdin := by rw [← hc1]
    have hp1 : c1.pty = c.pty := by rw [← hc1]
    cases hs : c.stdin with
    | none =>
      rw [closeIO_no_stdin sys c1 _ (hs1.trans hs)]
      simp only []
      rw [wgWait_pty, hp1]
    | some r =>
      rw [closeIO_open_stdin sys c1 _ r (hs1.trans hs) (hopen r hs)]
      simp only []
      rw [wgWait_pty]
      exact hp1
  · unfold VirtualCommand.Wait
    simp only [hcmd]
    generalize hc1 : ({ c with cmd := some (exec.Cmd.Wait sys cmd).1 } : VirtualCommand) = c1
    have hs1 : c1.stdin = c.stdin := by rw [← hc1]
    cases hs : c.stdin with
    | none =>
      rw [closeIO_no_stdin sys c1 _ (hs1.trans hs)]
      simp
    | some r =>
      rw [closeIO_open_stdin sys c1 _ r (hs1.trans hs) (hopen r hs)]
      simp

/-- Witness of C7: a started VirtualCommand with an open stdin adapter. -/
theorem C7_virtual_wait_step_order_witness :
    virtualStarted.cmd = some cmdStarted ∧
    (VirtualCommand.Wait sysOk virtualStarted []).trace =
      [.cmdWait none, .stdinClose none, .ttyClose none, .wgWait, .cleanFunc 1 none,
        .cleanFunc 2 (some (.sentinel "remove failed"))] ∧
    (VirtualCommand.Wait sysOk virtualStarted []).state.pty = virtualStarted.pty :=
  ⟨rfl, by decide,
    (C7_virtual_wait_step_order sysOk virtualStarted [] cmdStarted rfl (by decide)).2.2.1⟩

/-! ### The error slot -/

/-- C8. The output pump, after its copy from the master ended with error `e`:
an `e` that is or wraps `EIO` or the file-already-closed error leaves the
command, and so the error slot, unchanged; any other non-nil `e` is stored,
with a stack attached, when the slot is nil, and leaves a non-nil slot as it
is; a nil `e` leaves the command unchanged. -/
theorem C8_output_pump_error (c : VirtualCommand) (e : Option Err) :
    ((errors.Is e syscall.EIO = true ∨ errors.Is e os.ErrClosed = true) →
      c.outputPump e = c) ∧
    (∀ x, e = some x → errors.Is e syscall.EIO = false → errors.Is e os.ErrClosed = false →
      c.err = none → c.outputPump e = { c with err := some (.wrap .stack x) }) ∧
    (∀ x, e = some x → errors.Is e syscall.EIO = false → errors.Is e os.ErrClosed = false →
      c.err ≠ none → c.outputPump e = c) ∧
    (e = none → c.outputPump e = c) := by
  refine ⟨?_, ?_, ?_, ?_⟩
  · intro h
    unfold VirtualCommand.outputPump
    cases e with
    | none => simp
    | some x =>
      rcases h with h | h
      · simp [h]
      · simp [h]
  · intro x hx h1 h2 hslot
    subst hx
    unfold VirtualCommand.outputPump VirtualCommand.setErr
    simp [h1, h2, hslot, errors.WithStack]
  · intro x hx h1 h2 hslot
    subst hx
    unfold VirtualCommand.outputPump VirtualCommand.setErr
    cases hc : c.err with
    | none => exact absurd hc hslot
    | some y => simp [h1, h2, errors.WithStack]
  · intro h
    subst h
    simp [VirtualCommand.outputPump]

/-- Witness of C8: a read from the master failing with `EIO` inside a
`PathError` ends the pump cleanly; a write failing with `ENOENT` is stored. -/
theorem C8_output_pump_error_witness :
    virtualStarted.outputPump (some (.wrap (.path "read" "/dev/ptmx") syscall.EIO)) =
      virtualStarted ∧
    virtualStarted.outputPump (some syscall.ENOENT) =
      { virtualStarted with err := some (.wrap .stack syscall.ENOENT) } :=
  ⟨(C8_output_pump_error virtualStarted
      (some (.wrap (.path "read" "/dev/ptmx") syscall.EIO))).1 (Or.inl (by decide)),
    (C8_output_pump_error virtualStarted (some syscall.ENOENT)).2.1 syscall.ENOENT rfl
      (by decide) (by decide) rfl⟩

/-- C9. After any sequence of `setErr` calls the error slot holds the first
non-nil value among the value it held before and the arguments in call order
(nil when all are nil), and nothing else of the command has changed; a call on
a non-nil slot changes nothing, and neither does a call with nil. -/
theorem C9_setErr_keeps_first_error (c : VirtualCommand) (errs : List (Option Err)) :
    (errs.foldl VirtualCommand.setErr c).err = (c.err :: errs).findSome? id ∧
    errs.foldl VirtualCommand.setErr c =
      { c with err := (errs.foldl VirtualCommand.setErr c).err } ∧
    (∀ (x : Err) (e : Option Err),
      VirtualCommand.setErr { c with err := some x } e = { c with err := some x }) ∧
    c.setErr none = c := by
  refine ⟨?_, ?_, ?_, ?_⟩
  · induction errs generalizing c with
    | nil => cases hc : c.err <;> simp [hc]
    | cons e errs ih =>
      simp only [List.foldl_cons]
      rw [ih, setErr_err]
      cases hc : c.err <;> cases e <;> simp [List.findSome?]
  · induction errs generalizing c with
    | nil => rfl
    | cons e errs ih =>
      simp only [List.foldl_cons]
      rw [ih, setErr_fields c e]
  · intro x e
    unfold VirtualCommand.setErr
    cases e <;> simp
  · simp [VirtualCommand.setErr]

/-! ### Pid -/

theorem exec_wait_process (sys : Sys) (cmd : exec.Cmd) :
    (exec.Cmd.Wait sys cmd).1.Process = cmd.Process := by
  unfold exec.Cmd.Wait
  cases hp : cmd.Process with
  | none => simp [hp]
  | some p =>
    cases hs : cmd.ProcessState with
    | some st => simp [hp]
    | none =>
      cases hw : sys.processWait p.Pid <;> simp [hp, hw]

theorem wgWait_cmd (sys : Sys) (c : VirtualCommand) (tr : List Event) :
    ( VirtualCommand.wgWait sys c tr).1.cmd = c.cmd := by
  unfold VirtualCommand.wgWait
  simp only []
  rw [foldl_pumpDone_fields]

theorem native_start_pid (sys : Sys) (c : NativeCommand) (tr : List Event)
    (h : (NativeCommand.Start sys c tr).ret = .returned none) :
    ∃ cfg cleanups p, sys.normalizeConfig c.cfg = .ok (cfg, cleanups) ∧
      sys.startProcess cfg = .ok p ∧ (NativeCommand.Start sys c tr).state.Pid = p.Pid := by
  unfold NativeCommand.Start at h ⊢
  cases hn : sys.normalizeConfig c.cfg with
  | error e => simp [hn] at h
  | ok r =>
    obtain ⟨cfg, cleanups⟩ := r
    refine ⟨cfg, cleanups, ?_⟩
    cases hsp : sys.startProcess cfg with
    | error e =>
      exfalso
      cases hin : c.opts.Stdin with
      | file fd =>
        cases hd : sys.dup fd <;>
          simp [hn, hin, hd, exec.Cmd.Start, hsp, errors.WithStack, errors.Wrap] at h
      | absent => simp [hn, hin, exec.Cmd.Start, hsp, errors.WithStack] at h
      | typedNil => simp [hn, hin, exec.Cmd.Start, hsp, errors.WithStack] at h
      | discard => simp [hn, hin, exec.Cmd.Start, hsp, errors.WithStack] at h
      | other n => simp [hn, hin, exec.Cmd.Start, hsp, errors.WithStack] at h
    | ok p =>
      refine ⟨p, rfl, rfl, ?_⟩
      cases hin : c.opts.Stdin with
      | file fd =>
        cases hd : sys.dup fd with
        | error e => simp [hn, hin, hd, errors.Wrap] at h
        | ok fd2 => simp [hin, hd, exec.Cmd.Start, hsp, NativeCommand.Pid]
      | absent => simp [hin, exec.Cmd.Start, hsp, NativeCommand.Pid]
      | typedNil => simp [hin, exec.Cmd.Start, hsp, NativeCommand.Pid]
      | discard => simp [hin, exec.Cmd.Start, hsp, NativeCommand.Pid]
      | other n => simp [hin, exec.Cmd.Start, hsp, NativeCommand.Pid]

theorem virtual_start_pid (sys : Sys) (c : VirtualCommand) (tr : List Event)
    (h : (VirtualCommand.Start sys c tr).ret = .returned none) :
    ∃ cfg cleanups p, sys.normalizeConfig c.cfg = .ok (cfg, cleanups) ∧
      sys.startProcess cfg = .ok p ∧ (VirtualCommand.Start sys c tr).state.Pid = p.Pid := by
  unfold VirtualCommand.Start at h ⊢
  cases hn : sys.normalizeConfig c.cfg with
  | error e => simp [hn] at h
  | ok r =>
    obtain ⟨cfg, cleanups⟩ := r
    refine ⟨cfg, cleanups, ?_⟩
    cases hpo : sys.ptyOpen with
    | error e => simp [hn, hpo, errors.WithStack] at h
    | ok ms =>
      obtain ⟨master, slave⟩ := ms
      cases hde : sys.disableEcho slave with
      | some e => simp [hn, hpo, hde] at h
      | none =>
        cases hsp : sys.startProcess cfg with
        | error e => simp [hn, hpo, hde, exec.Cmd.Start, hsp, errors.WithStack] at h
        | ok p =>
          refine ⟨p, rfl, rfl, ?_⟩
          simp only [hde, exec.Cmd.Start, hsp]
          split <;> split <;> rfl

theorem native_signal_state (g : Globals) (sys : Sys) (c : NativeCommand) (sig : os.Signal)
    (tr : List Event) : (NativeCommand.Signal g sys c sig tr).state = c := by
  unfold NativeCommand.Signal
  cases hc : c.cmd with
  | none => rfl
  | some cmd =>
    cases hp : cmd.Process with
    | none => simp [hp]
    | some p =>
      simp only [hp]
      split
      · split
        · rfl
        · split <;> rfl
      · split <;> rfl

theorem virtual_signal_state (g : Globals) (sys : Sys) (c : VirtualCommand) (sig : os.Signal)
    (tr : List Event) : (VirtualCommand.Signal g sys c sig tr).state = c := by
  unfold VirtualCommand.Signal
  cases hc : c.cmd with
  | none => rfl
  | some cmd =>
    cases hp : cmd.Process with
    | none => simp [hp]
    | some p =>
      simp only [hp]
      split
      · split <;> rfl
      · rfl

theorem native_wait_pid (sys : Sys) (c : NativeCommand) (tr : List Event) :
    (NativeCommand.Wait sys c tr).state.Pid = c.Pid := by
  unfold NativeCommand.Wait
  cases hc : c.cmd with
  | none => rfl
  | some cmd => simp [NativeCommand.Pid, hc, exec_wait_process]

theorem virtual_wait_pid (sys : Sys) (c : VirtualCommand) (tr : List Event) :
    (VirtualCommand.Wait sys c tr).state.Pid = c.Pid := by
  unfold VirtualCommand.Wait
  cases hc : c.cmd with
  | none => rfl
  | some cmd =>
    simp only []
    generalize hc1 : ({ c with cmd := some (exec.Cmd.Wait sys cmd).1 } : VirtualCommand) = c1
    have hs1 : c1.stdin = c.stdin := by rw [← hc1]
    have hcmd1 : c1.cmd = some (exec.Cmd.Wait sys cmd).1 := by rw [← hc1]
    have hpid : c1.Pid = c.Pid := by
      simp [VirtualCommand.Pid, hcmd1, hc, exec_wait_process]
    rw [← hpid]
    cases hs : c1.stdin with
    | none =>
      rw [closeIO_no_stdin sys c1 _ hs]
      simp only [VirtualCommand.Pid, wgWait_cmd]
    | some r =>
      cases hd : r.done with
      | false =>
        rw [closeIO_open_stdin sys c1 _ r hs hd]
        simp only [VirtualCommand.Pid, wgWait_cmd]
      | true =>
        rw [closeIO_closed_stdin sys c1 _ r hs hd]

theorem native_failed_start_pid (sys : Sys) (c : NativeCommand) (tr : List Event)
    (hnew : c.cmd = none) (h : (NativeCommand.Start sys c tr).ret ≠ .returned none) :
    (NativeCommand.Start sys c tr).state.Pid = 0 := by
  unfold NativeCommand.Start at h ⊢
  cases hn : sys.normalizeConfig c.cfg with
  | error e => simp [NativeCommand.Pid, hnew]
  | ok r =>
    obtain ⟨cfg, cleanups⟩ := r
    cases hsp : sys.startProcess cfg with
    | error e =>
      cases hin : c.opts.Stdin with
      | file fd =>
        cases hd : sys.dup fd <;>
          simp [hin, hd, exec.Cmd.Start, hsp, NativeCommand.Pid, hnew]
      | absent => simp [hin, exec.Cmd.Start, hsp, NativeCommand.Pid]
      | typedNil => simp [hin, exec.Cmd.Start, hsp, NativeCommand.Pid]
      | discard => simp [hin, exec.Cmd.Start, hsp, NativeCommand.Pid]
      | other n => simp [hin, exec.Cmd.Start, hsp, NativeCommand.Pid]
    | ok p =>
      cases hin : c.opts.Stdin with
      | file fd =>
        cases hd : sys.dup fd with
        | error e => simp [hin, hd, NativeCommand.Pid, hnew]
        | ok fd2 => simp [hn, hin, hd, exec.Cmd.Start, hsp] at h
      | absent => simp [hn, hin, exec.Cmd.Start, hsp] at h
      | typedNil => simp [hn, hin, exec.Cmd.Start, hsp] at h
      | discard => simp [hn, hin, exec.Cmd.Start, hsp] at h
      | other n => simp [hn, hin, exec.Cmd.Start, hsp] at h

theorem virtual_failed_start_pid (sys : Sys) (c : VirtualCommand) (tr : List Event)
    (hnew : c.cmd = none) (h : (VirtualCommand.Start sys c tr).ret ≠ .returned none) :
    (VirtualCommand.Start sys c tr).state.Pid = 0 := by
  unfold VirtualCommand.Start at h ⊢
  cases hn : sys.normalizeConfig c.cfg with
  | error e => simp [VirtualCommand.Pid, hnew]
  | ok r =>
    obtain ⟨cfg, cleanups⟩ := r
    cases hpo : sys.ptyOpen with
    | error e => simp [VirtualCommand.Pid, hnew]
    | ok ms =>
      obtain ⟨master, slave⟩ := ms
      cases hde : sys.disableEcho slave with
      | some e => simp [hde, VirtualCommand.Pid, hnew]
      | none =>
        cases hsp : sys.startProcess cfg with
        | error e => simp [hde, exec.Cmd.Start, hsp, VirtualCommand.Pid]
        | ok p => simp [hn, hpo, hde, exec.Cmd.Start, hsp] at h

/-- C10. Pid is 0 on a new command and after a Start of a command without
`cmd` that returned an error. After a Start that returned nil, Pid is the
process id of the child that `os.StartProcess` created, which is greater than
0 (process ids of created children are positive). Signal and Wait leave Pid
unchanged. All of it for the Native and for the Virtual command. -/
theorem C10_pid_of_started_child (g : Globals) (sys : Sys) (nc : NativeCommand)
    (vc : VirtualCommand) (sig : os.Signal) (tr : List Event)
    (hos : ∀ cfg p, sys.startProcess cfg = .ok p → 0 < p.Pid) :
    (∀ cfg opts, (NewNative cfg opts).Pid = 0 ∧ (NewVirtual cfg opts).Pid = 0) ∧
    (nc.cmd = none → (NativeCommand.Start sys nc tr).ret ≠ .returned none →
      (NativeCommand.Start sys nc tr).state.Pid = 0) ∧
    (vc.cmd = none → (VirtualCommand.Start sys vc tr).ret ≠ .returned none →
      (VirtualCommand.Start sys vc tr).state.Pid = 0) ∧
    ((NativeCommand.Start sys nc tr).ret = .returned none →
      ∃ cfg cleanups p, sys.normalizeConfig nc.cfg = .ok (cfg, cleanups) ∧
        sys.startProcess cfg = .ok p ∧
        (NativeCommand.Start sys nc tr).state.Pid = p.Pid ∧
        0 < (NativeCommand.Start sys nc tr).state.Pid) ∧
    ((VirtualCommand.Start sys vc tr).ret = .returned none →
      ∃ cfg cleanups p, sys.normalizeConfig vc.cfg = .ok (cfg, cleanups) ∧
        sys.startProcess cfg = .ok p ∧
        (VirtualCommand.Start sys vc tr).state.Pid = p.Pid ∧
        0 < (VirtualCommand.Start sys vc tr).state.Pid) ∧
    (NativeCommand.Signal g sys nc sig tr).state.Pid = nc.Pid ∧
    (NativeCommand.Wait sys nc tr).state.Pid = nc.Pid ∧
    (VirtualCommand.Signal g sys vc sig tr).state.Pid = vc.Pid ∧
    (VirtualCommand.Wait sys vc tr).state.Pid = vc.Pid := by
  refine ⟨fun _ _ => ⟨rfl, rfl⟩, native_failed_start_pid sys nc tr,
    virtual_failed_start_pid sys vc tr, ?_, ?_, ?_, native_wait_pid sys nc tr, ?_,
    virtual_wait_pid sys vc tr⟩
  · intro h
    obtain ⟨cfg, cleanups, p, h1, h2, h3⟩ := native_start_pid sys nc tr h
    exact ⟨cfg, cleanups, p, h1, h2, h3, h3 ▸ hos cfg p h2⟩
  · intro h
    obtain ⟨cfg, cleanups, p, h1, h2, h3⟩ := virtual_start_pid sys vc tr h
    exact ⟨cfg, cleanups, p, h1, h2, h3, h3 ▸ hos cfg p h2⟩
  · rw [native_signal_state]
  · rw [virtual_signal_state]

/-- Witness of C10: a new Native command started where every call succeeds has
the pid of its child, 4242. -/
theorem C10_pid_of_started_child_witness :
    (∀ cfg p, sysOk.startProcess cfg = .ok p → 0 < p.Pid) ∧
    (NativeCommand.Start sysOk (NewNative cfgSh optsNone) []).ret = .returned none ∧
    (NativeCommand.Start sysOk (NewNative cfgSh optsNone) []).state.Pid = 4242 ∧
    ∃ cfg cleanups p, sysOk.normalizeConfig (NewNative cfgSh optsNone).cfg = .ok (cfg, cleanups) ∧
      sysOk.startProcess cfg = .ok p ∧
      (NativeCommand.Start sysOk (NewNative cfgSh optsNone) []).state.Pid = p.Pid ∧
      0 < (NativeCommand.Start sysOk (NewNative cfgSh optsNone) []).state.Pid :=
  ⟨by intro cfg p h; cases h; decide, by decide, by decide,
    (C10_pid_of_started_child ⟨true⟩ sysOk (NewNative cfgSh optsNone)
      (NewVirtual cfgSh optsNone) 2 [] (by intro cfg p h; cases h; decide)).2.2.2.1
      (by decide)⟩

/-! ### SetWinsize -/

theorem virtual_start_pty (sys : Sys) (c : VirtualCommand) (tr : List Event)
    (h : (VirtualCommand.Start sys c tr).ret = .returned none) :
    ∃ master slave, sys.ptyOpen = .ok (master, slave) ∧
      (VirtualCommand.Start sys c tr).state.pty = some master := by
  unfold VirtualCommand.Start at h ⊢
  cases hn : sys.normalizeConfig c.cfg with
  | error e => simp [hn] at h
  | ok r =>
    obtain ⟨cfg, cleanups⟩ := r
    cases hpo : sys.ptyOpen with
    | error e => simp [hn, hpo, errors.WithStack] at h
    | ok ms =>
      obtain ⟨master, slave⟩ := ms
      refine ⟨master, slave, rfl, ?_⟩
      cases hde : sys.disableEcho slave with
      | some e => simp [hn, hpo, hde] at h
      | none =>
        cases hsp : sys.startProcess cfg with
        | error e => simp [hn, hpo, hde, exec.Cmd.Start, hsp, errors.WithStack] at h
        | ok p =>
          simp only [hde, exec.Cmd.Start, hsp]
          split <;> split <;> rfl

theorem masterClosed_append (tr evs : List Event) :
    masterClosed (tr ++ evs) = (masterClosed tr || masterClosed evs) := by
  simp [masterClosed, List.any_append]

theorem masterClosed_cleanEvents (fns : List CleanFunc) :
    masterClosed (cleanEvents fns) = false := by
  induction fns with
  | nil => rfl
  | cons fn fns ih =>
    simp only [masterClosed, cleanEvents, List.any_cons] at ih ⊢
    exact ih

theorem virtual_start_masterClosed (sys : Sys) (c : VirtualCommand) (tr : List Event) :
    masterClosed (VirtualCommand.Start sys c tr).trace = masterClosed tr := by
  unfold VirtualCommand.Start
  cases hn : sys.normalizeConfig c.cfg with
  | error e => rfl
  | ok r =>
    obtain ⟨cfg, cleanups⟩ := r
    cases hpo : sys.ptyOpen with
    | error e => simp [masterClosed]
    | ok ms =>
      obtain ⟨master, slave⟩ := ms
      cases hde : sys.disableEcho slave with
      | some e => simp [hde, masterClosed]
      | none =>
        cases hsp : sys.startProcess cfg with
        | error e => simp [hde, exec.Cmd.Start, hsp, masterClosed]
        | ok p =>
          simp only [hde, exec.Cmd.Start, hsp]
          split <;> split <;> simp [masterClosed]

theorem virtual_signal_masterClosed (g : Globals) (sys : Sys) (c : VirtualCommand)
    (sig : os.Signal) (tr : List Event) :
    masterClosed (VirtualCommand.Signal g sys c sig tr).trace = masterClosed tr := by
  unfold VirtualCommand.Signal
  cases hc : c.cmd with
  | none => rfl
  | some cmd =>
    cases hp : cmd.Process with
    | none => simp [hp]
    | some p =>
      simp only [hp]
      split
      · split <;> simp [masterClosed]
      · simp [masterClosed]

theorem virtual_wait_masterClosed (sys : Sys) (c : VirtualCommand) (tr : List Event) :
    masterClosed (VirtualCommand.Wait sys c tr).trace = masterClosed tr := by
  cases hc : c.cmd with
  | none =>
    unfold VirtualCommand.Wait
    simp only [hc, VirtualCommand.cleanup]
    rw [cleanupLoop_trace, masterClosed_append, masterClosed_cleanEvents]
    simp
  | some cmd =>
    rw [virtual_wait_trace sys c tr cmd hc, masterClosed_append, masterClosed_cleanEvents,
      masterClosed_append, masterClosed_append]
    cases hs : c.stdin with
    | none => simp [masterClosed]
    | some r => cases hd : r.done <;> simp [masterClosed, hd]

theorem setWinsize_masterClosed (sys : Sys) (c : VirtualCommand) (ws : Winsize)
    (tr : List Event) : masterClosed (SetWinsize sys c ws tr).trace = masterClosed tr := by
  unfold SetWinsize
  cases c.pty <;> simp [masterClosed]

theorem virtual_wait_pty (sys : Sys) (c : VirtualCommand) (tr : List Event) :
    (VirtualCommand.Wait sys c tr).state.pty = c.pty := by
  cases hc : c.cmd with
  | none =>
    unfold VirtualCommand.Wait
    simp only [hc]
  | some cmd =>
    cases hs : c.stdin with
    | none =>
      unfold VirtualCommand.Wait
      simp only [hc]
      rw [closeIO_no_stdin sys _ _ (show ({ c with cmd := some (exec.Cmd.Wait sys cmd).1 } :
        VirtualCommand).stdin = none from hs)]
      simp only []
      rw [wgWait_pty]
    | some r =>
      cases hd : r.done with
      | false =>
        unfold VirtualCommand.Wait
        simp only [hc]
        rw [closeIO_open_stdin sys _ _ r (show ({ c with cmd := some (exec.Cmd.Wait sys cmd).1 } :
          VirtualCommand).stdin = some r from hs) hd]
        simp only []
        rw [wgWait_pty]
      | true =>
        unfold VirtualCommand.Wait
        simp only [hc]
        rw [closeIO_closed_stdin sys _ _ r (show ({ c with cmd := some (exec.Cmd.Wait sys cmd).1 } :
          VirtualCommand).stdin = some r from hs) hd]

theorem setWinsize_state (sys : Sys) (c : VirtualCommand) (ws : Winsize) (tr : List Event) :
    (SetWinsize sys c ws tr).state = c := by
  unfold SetWinsize
  cases c.pty <;> rfl

theorem virtual_start_keeps_master (sys : Sys) (c : VirtualCommand) (tr : List Event)
    (master slave : Nat) (hopen : sys.ptyOpen = .ok (master, slave))
    (hpty : c.pty = some master) :
    (VirtualCommand.Start sys c tr).state.pty = some master := by
  unfold VirtualCommand.Start
  cases hn : sys.normalizeConfig c.cfg with
  | error e => exact hpty
  | ok r =>
    obtain ⟨cfg, cleanups⟩ := r
    simp only [hopen]
    cases hde : sys.disableEcho slave with
    | some e => rfl
    | none =>
      cases hsp : sys.startProcess cfg with
      | error e => simp [exec.Cmd.Start, hsp]
      | ok p =>
        simp only [exec.Cmd.Start, hsp]
        split <;> split <;> rfl

theorem runCalls_masterClosed (g : Globals) (sys : Sys) (calls : List VirtualCall)
    (c : VirtualCommand) (tr : List Event) :
    masterClosed (runCalls g sys calls c tr).2 = masterClosed tr := by
  induction calls generalizing c tr with
  | nil => rfl
  | cons call calls ih =>
    simp only [runCalls]
    rw [ih]
    cases call with
    | Start => exact virtual_start_masterClosed sys c tr
    | Signal sig => exact virtual_signal_masterClosed g sys c sig tr
    | Wait => exact virtual_wait_masterClosed sys c tr
    | SetWinsize ws => exact setWinsize_masterClosed sys c ws tr

theorem runCalls_no_start_pty (g : Globals) (sys : Sys) (calls : List VirtualCall)
    (c : VirtualCommand) (tr : List Event) (h : ∀ call ∈ calls, call ≠ VirtualCall.Start) :
    (runCalls g sys calls c tr).1.pty = c.pty := by
  induction calls generalizing c tr with
  | nil => rfl
  | cons call calls ih =>
    simp only [runCalls]
    rw [ih _ _ (fun x hx => h x (List.mem_cons_of_mem _ hx))]
    cases call with
    | Start => exact absurd rfl (h _ (List.mem_cons_self _ _))
    | Signal sig => simp only [VirtualCall.run]; rw [virtual_signal_state]
    | Wait => exact virtual_wait_pty sys c tr
    | SetWinsize ws => simp only [VirtualCall.run]; rw [setWinsize_state]

theorem runCalls_keeps_master (g : Globals) (sys : Sys) (calls : List VirtualCall)
    (c : VirtualCommand) (tr : List Event) (master slave : Nat)
    (hopen : sys.ptyOpen = .ok (master, slave)) (hpty : c.pty = some master) :
    (runCalls g sys calls c tr).1.pty = some master := by
  induction calls generalizing c tr with
  | nil => exact hpty
  | cons call calls ih =>
    simp only [runCalls]
    apply ih
    cases call with
    | Start => exact virtual_start_keeps_master sys c tr master slave hopen hpty
    | Signal sig => simp only [VirtualCall.run]; rw [virtual_signal_state]; exact hpty
    | Wait => exact (virtual_wait_pty sys c tr).trans hpty
    | SetWinsize ws => simp only [VirtualCall.run]; rw [setWinsize_state]; exact hpty

/-- C11. On a new VirtualCommand, whatever calls of Signal, Wait and
SetWinsize were made, SetWinsize before Start returns nil and makes no
set-size call. No call of Start, Signal, Wait or SetWinsize closes the
master, so a SetWinsize after the master has been closed is a no-op as well
(there is no such call). After a Start that returned nil, and whatever calls
follow it, the field `pty` holds the master that `pty.Open` gave, and
SetWinsize makes one set-size call on it with exactly the supplied winsize
and returns that call's error, with a stack attached; it leaves the command
unchanged. -/
theorem C11_setWinsize_noop_or_sets_size (g : Globals) (sys : Sys) (cfg : Config)
    (opts : Options) (ws : Winsize) :
    (∀ calls, (∀ call ∈ calls, call ≠ VirtualCall.Start) →
      (SetWinsize sys (runCalls g sys calls (NewVirtual cfg opts) []).1 ws
          (runCalls g sys calls (NewVirtual cfg opts) []).2).ret = .returned none ∧
      (SetWinsize sys (runCalls g sys calls (NewVirtual cfg opts) []).1 ws
          (runCalls g sys calls (NewVirtual cfg opts) []).2).trace =
        (runCalls g sys calls (NewVirtual cfg opts) []).2) ∧
    (∀ calls, masterClosed (runCalls g sys calls (NewVirtual cfg opts) []).2 = false) ∧
    (∀ calls, masterClosed (runCalls g sys calls (NewVirtual cfg opts) []).2 = true →
      (SetWinsize sys (runCalls g sys calls (NewVirtual cfg opts) []).1 ws
          (runCalls g sys calls (NewVirtual cfg opts) []).2).ret = .returned none ∧
      (SetWinsize sys (runCalls g sys calls (NewVirtual cfg opts) []).1 ws
          (runCalls g sys calls (NewVirtual cfg opts) []).2).trace =
        (runCalls g sys calls (NewVirtual cfg opts) []).2) ∧
    (∀ (c : VirtualCommand) (tr : List Event) (calls : List VirtualCall),
      (VirtualCommand.Start sys c tr).ret = .returned none →
      ∃ master slave, sys.ptyOpen = .ok (master, slave) ∧
        (runCalls g sys calls (VirtualCommand.Start sys c tr).state
          (VirtualCommand.Start sys c tr).trace).1.pty = some master ∧
        (SetWinsize sys
            (runCalls g sys calls (VirtualCommand.Start sys c tr).state
              (VirtualCommand.Start sys c tr).trace).1 ws
            (runCalls g sys calls (VirtualCommand.Start sys c tr).state
              (VirtualCommand.Start sys c tr).trace).2).ret =
          .returned (errors.WithStack (sys.ptySetsize master ws)) ∧
        (SetWinsize sys
            (runCalls g sys calls (VirtualCommand.Start sys c tr).state
              (VirtualCommand.Start sys c tr).trace).1 ws
            (runCalls g sys calls (VirtualCommand.Start sys c tr).state
              (VirtualCommand.Start sys c tr).trace).2).trace =
          (runCalls g sys calls (VirtualCommand.Start sys c tr).state
              (VirtualCommand.Start sys c tr).trace).2 ++
            [.setsize master ws (sys.ptySetsize master ws)]) ∧
    (∀ (c : VirtualCommand) (tr : List Event), (SetWinsize sys c ws tr).state = c) := by
  have hnever : ∀ calls,
      masterClosed (runCalls g sys calls (NewVirtual cfg opts) []).2 = false := by
    intro calls
    rw [runCalls_masterClosed]
    rfl
  refine ⟨?_, hnever, ?_, ?_, fun c tr => setWinsize_state sys c ws tr⟩
  · intro calls hno
    have hpty := runCalls_no_start_pty g sys calls (NewVirtual cfg opts) [] hno
    have hnone : (runCalls g sys calls (NewVirtual cfg opts) []).1.pty = none := hpty
    simp [SetWinsize, hnone]
  · intro calls hclosed
    rw [hnever calls] at hclosed
    exact Bool.noConfusion hclosed
  · intro c tr calls hstart
    obtain ⟨master, slave, hopen, hpty⟩ := virtual_start_pty sys c tr hstart
    have hkeep := runCalls_keeps_master g sys calls _ (VirtualCommand.Start sys c tr).trace
      master slave hopen hpty
    exact ⟨master, slave, hopen, hkeep, by simp [SetWinsize, hkeep],
      by simp [SetWinsize, hkeep]⟩

/-- Witness of C11: no set-size call on a new command after a Wait; one call
with 64 rows and 200 columns after Start and Wait. -/
theorem C11_setWinsize_noop_or_sets_size_witness :
    (SetWinsize sysOk (runCalls ⟨true⟩ sysOk [.Wait] (NewVirtual cfgSh optsNone) []).1
        winsize64x200
        (runCalls ⟨true⟩ sysOk [.Wait] (NewVirtual cfgSh optsNone) []).2).ret =
      .returned none ∧
    (SetWinsize sysOk
        (runCalls ⟨true⟩ sysOk [.Wait]
          (VirtualCommand.Start sysOk (NewVirtual cfgSh optsNone) []).state
          (VirtualCommand.Start sysOk (NewVirtual cfgSh optsNone) []).trace).1
        winsize64x200
        (runCalls ⟨true⟩ sysOk [.Wait]
          (VirtualCommand.Start sysOk (NewVirtual cfgSh optsNone) []).state
          (VirtualCommand.Start sysOk (NewVirtual cfgSh optsNone) []).trace).2).trace =
      [.ptyOpen true, .cmdStart none, .goPump false, .cmdWait none, .ttyClose none, .wgWait,
        .setsize 10 winsize64x200 none] ∧
    ∃ master slave, sysOk.ptyOpen = .ok (master, slave) ∧
      (runCalls ⟨true⟩ sysOk [.Wait]
        (VirtualCommand.Start sysOk (NewVirtual cfgSh optsNone) []).state
        (VirtualCommand.Start sysOk (NewVirtual cfgSh optsNone) []).trace).1.pty =
        some master :=
  ⟨((C11_setWinsize_noop_or_sets_size ⟨true⟩ sysOk cfgSh optsNone winsize64x200).1 [.Wait]
      (by decide)).1,
    by decide,
    ((C11_setWinsize_noop_or_sets_size ⟨true⟩ sysOk cfgSh optsNone winsize64x200).2.2.2.1
      (NewVirtual cfgSh optsNone) [] [.Wait] (by decide)).imp
      (fun _ h => h.imp (fun _ h2 => ⟨h2.1, h2.2.1⟩))⟩

/-! ### The stdin adapter -/

/-- C12. On a readCloser that has not been closed: a Read during which Close
is not called and whose underlying read completes returns exactly the
`(n, err)` of that read; a Read whose underlying read has not completed when
Close is called returns `(0, io.EOF)`; Close returns nil and marks the adapter
closed. -/
theorem C12_readCloser_read_and_close (r : readCloser) (under : Nat × Option Err)
    (race : ReadRace) (hopen : r.done = false) :
    (race.closed = false → race.readDone = true → r.Read under race = some under) ∧
    (race.closed = true → race.readDone = false → r.Read under race = some (0, some io.EOF)) ∧
    r.Close = some ({ r with done := true }, none) := by
  refine ⟨?_, ?_, ?_⟩
  · intro h1 h2
    simp [readCloser.Read, hopen, h1, h2]
  · intro h1 h2
    simp [readCloser.Read, h1, h2]
  · simp [readCloser.Close, hopen]

/-- Witness of C12: a read of 3 bytes passes through; a read in flight when
Close is called yields `(0, io.EOF)`. -/
theorem C12_readCloser_read_and_close_witness :
    readCloser.Read { r := .other 0, done := false } (3, none)
        { readDone := true, closed := false, pickRead := false } = some (3, none) ∧
    readCloser.Read { r := .other 0, done := false } (3, none)
        { readDone := false, closed := true, pickRead := true } = some (0, some io.EOF) :=
  ⟨(C12_readCloser_read_and_close { r := .other 0, done := false } (3, none)
      { readDone := true, closed := false, pickRead := false } rfl).1 rfl rfl,
    (C12_readCloser_read_and_close { r := .other 0, done := false } (3, none)
      { readDone := false, closed := true, pickRead := true } rfl).2.1 rfl rfl⟩

/-! ### Exit of the child -/

/-- C13 fails as stated: the child of a Native command exits with status 1,
the only cleanup callback succeeds, and Wait returns the `ExitError`, not
nil. -/
theorem C13_counterexample :
    (nativeCleanOk.cleanup []).1 = none ∧
    sysExitOne.processWait 4242 = .ok (.exited 1) ∧
    (NativeCommand.Wait sysExitOne nativeCleanOk []).ret =
      .returned (some (.wrap .stack (.exitError (.exited 1)))) ∧
    (NativeCommand.Wait sysExitOne nativeCleanOk []).ret ≠ .returned none :=
  ⟨by decide, rfl, by decide, by decide⟩

/-- C13 as amended. When the child of a started Native command that has not
been waited for ends unsuccessfully (a non-zero exit code, or a signal), Wait
returns the `ExitError` of that end with a stack attached, whatever cleanup
returns; the exit state stays readable from the process state of `cmd`. -/
theorem C13_native_wait_reports_exit_error (sys : Sys) (c : NativeCommand) (tr : List Event)
    (cmd : exec.Cmd) (p : os.Process) (st : os.ProcessState)
    (hcmd : c.cmd = some cmd) (hproc : cmd.Process = some p) (hnotyet : cmd.ProcessState = none)
    (hwait : sys.processWait p.Pid = .ok st) (hfail : st.Success = false) :
    (NativeCommand.Wait sys c tr).ret = .returned (some (.wrap .stack (.exitError st))) ∧
    (NativeCommand.Wait sys c tr).state.cmd = some { cmd with ProcessState := some st } := by
  unfold NativeCommand.Wait
  simp [hcmd, exec.Cmd.Wait, hproc, hnotyet, hwait, hfail, errors.WithStack]

/-- Witness of C13 as amended: exit status 1 is returned and stays readable. -/
theorem C13_native_wait_reports_exit_error_witness :
    (NativeCommand.Wait sysExitOne nativeCleanOk []).ret =
      .returned (some (.wrap .stack (.exitError (.exited 1)))) ∧
    (NativeCommand.Wait sysExitOne nativeCleanOk []).state.cmd =
      some { cmdStarted with ProcessState := some (.exited 1) } :=
  C13_native_wait_reports_exit_error sysExitOne nativeCleanOk [] cmdStarted ⟨4242⟩ (.exited 1)
    rfl rfl rfl rfl rfl

/-- C16. The exit code reported for a child that exited normally is its own
exit code, and for a child terminated by a signal it is 128 plus the signal
number: 130 for SIGINT (2) and 143 for SIGTERM (15). -/
theorem C16_exit_code_mapping (code sig : Nat) :
    exitCodeOf (.exited code) = code ∧
    exitCodeOf (.signaled sig) = 128 + sig ∧
    exitCodeOf (.signaled 2) = 130 ∧
    exitCodeOf (.signaled 15) = 143 ∧
    exitCodeOf (.exited 130) = 130 :=
  ⟨rfl, rfl, rfl, rfl, rfl⟩

/-! ### Result of Signal -/

/-- C17. Signal of a started command, Native or Virtual, returns nil iff one
of the attempts it made succeeded; when every attempt it made failed, the last
attempt was the kill and Signal returns the error of the kill (with a stack
attached); the result is never anything but nil or that error of the kill. -/
theorem C17_signal_returns_nil_or_kill_error (g : Globals) (sys : Sys) (nc : NativeCommand)
    (vc : VirtualCommand) (ncmd vcmd : exec.Cmd) (np vp : os.Process) (sig : os.Signal)
    (tr : List Event) (hn : nc.cmd = some ncmd) (hnp : ncmd.Process = some np)
    (hv : vc.cmd = some vcmd) (hvp : vcmd.Process = some vp) :
    (∃ attempts r,
      (NativeCommand.Signal g sys nc sig tr).trace = tr ++ attempts ∧
      (NativeCommand.Signal g sys nc sig tr).ret = .returned r ∧
      (r = none ↔ ∃ e ∈ attempts, e.res = none) ∧
      ((∀ e ∈ attempts, e.res ≠ none) →
        attempts.getLast? = some (.processKill np.Pid (sys.processKill np.Pid)) ∧
        r = errors.WithStack (sys.processKill np.Pid)) ∧
      (r = none ∨ r = errors.WithStack (sys.processKill np.Pid))) ∧
    (∃ attempts r,
      (VirtualCommand.Signal g sys vc sig tr).trace = tr ++ attempts ∧
      (VirtualCommand.Signal g sys vc sig tr).ret = .returned r ∧
      (r = none ↔ ∃ e ∈ attempts, e.res = none) ∧
      ((∀ e ∈ attempts, e.res ≠ none) →
        attempts.getLast? = some (.processKill vp.Pid (sys.processKill vp.Pid)) ∧
        r = errors.WithStack (sys.processKill vp.Pid)) ∧
      (r = none ∨ r = errors.WithStack (sys.processKill vp.Pid))) := by
  constructor
  · unfold NativeCommand.Signal
    simp only [hn, hnp]
    cases hg : g.SignalToProcessGroup <;>
      cases hG : sys.signalPgid np.Pid sig <;>
      cases hS : sys.processSignal np.Pid sig <;>
      cases hK : sys.processKill np.Pid <;>
      simp only [Option.isNone_none, Option.isNone_some, Option.isSome_none,
        Option.isSome_some, if_true, if_false, Bool.false_eq_true, List.append_assoc] <;>
      refine ⟨_, _, rfl, rfl, ?_⟩ <;>
      simp [Event.res, errors.WithStack]
  · unfold VirtualCommand.Signal
    simp only [hv, hvp]
    cases hG : sys.signalPgid vp.Pid sig <;>
      cases hS : sys.processSignal vp.Pid sig <;>
      cases hK : sys.processKill vp.Pid <;>
      simp only [Option.isNone_none, Option.isNone_some, Option.isSome_none,
        Option.isSome_some, if_true, if_false, Bool.false_eq_true, List.append_assoc] <;>
      refine ⟨_, _, rfl, rfl, ?_⟩ <;>
      simp [Event.res, errors.WithStack]

/-- Witness of C17: the group signal fails, the process signal succeeds, and
Signal of the Native command returns nil. -/
theorem C17_signal_returns_nil_or_kill_error_witness :
    (NativeCommand.Signal ⟨true⟩ sysGroupFails nativeStarted 2 []).ret = .returned none ∧
    ∃ attempts r,
      (VirtualCommand.Signal ⟨true⟩ sysGroupFails virtualStarted 2 []).trace = [] ++ attempts ∧
      (VirtualCommand.Signal ⟨true⟩ sysGroupFails virtualStarted 2 []).ret = .returned r ∧
      (r = none ↔ ∃ e ∈ attempts, e.res = none) ∧
      ((∀ e ∈ attempts, e.res ≠ none) →
        attempts.getLast? = some (.processKill 4242 (sysGroupFails.processKill 4242)) ∧
        r = errors.WithStack (sysGroupFails.processKill 4242)) ∧
      (r = none ∨ r = errors.WithStack (sysGroupFails.processKill 4242)) :=
  ⟨by decide,
    (C17_signal_returns_nil_or_kill_error ⟨true⟩ sysGroupFails nativeStarted virtualStarted
      cmdStarted cmdStarted ⟨4242⟩ ⟨4242⟩ 2 [] rfl rfl rfl rfl).2⟩

/-! ### Start -/

/-- C18 at the failing input: with a nil pointer as Stdout, NewVirtual keeps
that handle (only the nil interface is replaced by `io.Discard`), and a Start
in which every call succeeds starts no pump at all: the wait-group is empty and
no goroutine is launched. With an absent Stdout the output pump is started. -/
theorem C18_typed_nil_stdout_starts_no_output_pump :
    (NewVirtual cfgSh optsTypedNil).opts.Stdout = .typedNil ∧
    isNil (NewVirtual cfgSh optsTypedNil).opts.Stdout = true ∧
    (VirtualCommand.Start sysOk (NewVirtual cfgSh optsTypedNil) []).ret = .returned none ∧
    (VirtualCommand.Start sysOk (NewVirtual cfgSh optsTypedNil) []).state.wg = [] ∧
    (VirtualCommand.Start sysOk (NewVirtual cfgSh optsTypedNil) []).trace =
      [.ptyOpen true, .cmdStart none] ∧
    (NewVirtual cfgSh optsNone).opts.Stdout = .discard ∧
    (VirtualCommand.Start sysOk (NewVirtual cfgSh optsNone) []).state.wg = [.output] ∧
    (VirtualCommand.Start sysOk (NewVirtual cfgSh optsNone) []).trace =
      [.ptyOpen true, .cmdStart none, .goPump false] := by
  decide

/-- C19. When config normalization fails, Start of either command returns
that error unchanged, leaves every field of the command as it was (no cleanup
callback is registered, no process handle and no PTY is stored) and performs
no effect (no PTY is opened, no process is started). On a new command Pid is
still 0 and Running is still false. -/
theorem C19_start_normalization_failure (sys : Sys) (nc : NativeCommand) (vc : VirtualCommand)
    (tr : List Event) (e : Err) :
    (sys.normalizeConfig nc.cfg = .error e →
      (NativeCommand.Start sys nc tr).ret = .returned (some e) ∧
      (NativeCommand.Start sys nc tr).state = nc ∧
      (NativeCommand.Start sys nc tr).trace = tr) ∧
    (sys.normalizeConfig vc.cfg = .error e →
      (VirtualCommand.Start sys vc tr).ret = .returned (some e) ∧
      (VirtualCommand.Start sys vc tr).state = vc ∧
      (VirtualCommand.Start sys vc tr).trace = tr) ∧
    (∀ cfg opts, sys.normalizeConfig cfg = .error e →
      (NativeCommand.Start sys (NewNative cfg opts) tr).state.Pid = 0 ∧
      (NativeCommand.Start sys (NewNative cfg opts) tr).state.Running = false ∧
      (NativeCommand.Start sys (NewNative cfg opts) tr).state.cleanFuncs = [] ∧
      (VirtualCommand.Start sys (NewVirtual cfg opts) tr).state.Pid = 0 ∧
      (VirtualCommand.Start sys (NewVirtual cfg opts) tr).state.Running = false ∧
      (VirtualCommand.Start sys (NewVirtual cfg opts) tr).state.cleanFuncs = [] ∧
      (VirtualCommand.Start sys (NewVirtual cfg opts) tr).state.pty = none) := by
  refine ⟨?_, ?_, ?_⟩
  · intro h
    simp [NativeCommand.Start, h]
  · intro h
    simp [VirtualCommand.Start, h]
  · intro cfg opts h
    have hn : sys.normalizeConfig (NewNative cfg opts).cfg = .error e := h
    have hv : sys.normalizeConfig (NewVirtual cfg opts).cfg = .error e := h
    simp only [NativeCommand.Start, VirtualCommand.Start, hn, hv]
    exact ⟨rfl, rfl, rfl, rfl, rfl, rfl, rfl⟩

/-- Witness of C19: normalization cannot resolve the program of a new Native
command. -/
theorem C19_start_normalization_failure_witness :
    (NativeCommand.Start sysNormalizeFails (NewNative cfgSh optsNone) []).ret =
      .returned (some (.sentinel "unresolved program")) ∧
    (NativeCommand.Start sysNormalizeFails (NewNative cfgSh optsNone) []).state =
      NewNative cfgSh optsNone ∧
    (NativeCommand.Start sysNormalizeFails (NewNative cfgSh optsNone) []).trace = [] :=
  (C19_start_normalization_failure sysNormalizeFails (NewNative cfgSh optsNone)
    (NewVirtual cfgSh optsNone) [] (.sentinel "unresolved program")).1 rfl

/-! ### runCmd -/

theorem runTasks_append_ok (env : RunEnv) (kernel : Kernel) (pre rest : List Task)
    (h : ∀ x ∈ pre, (runCodeBlock env kernel x.CodeBlock).1 = .returned none) :
    runTasks env kernel (pre ++ rest) =
      ((runTasks env kernel rest).1, blockEvents env kernel pre ++ (runTasks env kernel rest).2) := by
  induction pre with
  | nil => simp [blockEvents]
  | cons t ts ih =>
    have ht := h t (List.mem_cons_self _ _)
    have hts := ih (fun x hx => h x (List.mem_cons_of_mem _ hx))
    simp only [List.cons_append, runTasks, ht, if_true, List.append_eq]
    rw [hts]
    simp [blockEvents]

theorem runTasks_ret_nil_iff (env : RunEnv) (kernel : Kernel) (ts : List Task) :
    (runTasks env kernel ts).1 = .returned none ↔
      ∀ x ∈ ts, (runCodeBlock env kernel x.CodeBlock).1 = .returned none := by
  induction ts with
  | nil => simp [runTasks]
  | cons t ts ih =>
    by_cases ht : (runCodeBlock env kernel t.CodeBlock).1 = .returned none
    · simp [runTasks, ht, ih]
    · simp [runTasks, ht]

/-- C14. For a non-empty list of tasks and a kernel that could be obtained,
`runCmd` runs the code blocks one at a time in list order: the effects are those
of the blocks run so far, block after block, and inside a block the Start
comes first and the Wait, made only after a Start that returned nil, second.
At the first block that does not return nil `runCmd` stops with that block's
result, and no later block is started. It returns nil iff every block
returned nil. -/
theorem C14_runCmd_runs_blocks_in_order (env : RunEnv) (kernelName : String) (kernel : Kernel)
    (tasks : List Task) (hne : tasks ≠ []) (hk : env.kernelGetter kernelName = .ok kernel) :
    (∀ pre t post, tasks = pre ++ t :: post →
      (∀ x ∈ pre, (runCodeBlock env kernel x.CodeBlock).1 = .returned none) →
      (runCodeBlock env kernel t.CodeBlock).1 ≠ .returned none →
      runCmd env kernelName tasks =
        ((runCodeBlock env kernel t.CodeBlock).1, blockEvents env kernel (pre ++ [t]))) ∧
    ((∀ x ∈ tasks, (runCodeBlock env kernel x.CodeBlock).1 = .returned none) →
      runCmd env kernelName tasks = (.returned none, blockEvents env kernel tasks)) ∧
    ((runCmd env kernelName tasks).1 = .returned none ↔
      ∀ x ∈ tasks, (runCodeBlock env kernel x.CodeBlock).1 = .returned none) ∧
    (∀ (b : CodeBlock) (cfg : Config), env.NewConfigFromCodeBlock b = .ok cfg →
      ∃ evStart evWait,
        (runCodeBlock env kernel b).2 =
          .callStart b.id :: evStart ++
            (if ((kernel cfg env.opts).Start (kernel cfg env.opts).new).1 = .returned none
              then .callWait b.id :: evWait else [])) := by
  have hlen : ¬ tasks.length = 0 := by
    intro h
    exact hne (List.length_eq_zero.mp h)
  have hrun : runCmd env kernelName tasks = runTasks env kernel tasks := by
    simp [runCmd, hlen, hk]
  refine ⟨?_, ?_, ?_, ?_⟩
  · intro pre t post htasks hpre ht
    rw [hrun, htasks, runTasks_append_ok env kernel pre (t :: post) hpre]
    simp [runTasks, ht, blockEvents]
  · intro hall
    rw [hrun]
    have h := runTasks_append_ok env kernel tasks [] hall
    simp only [List.append_nil] at h
    rw [h]
    simp [runTasks]
  · rw [hrun]
    exact runTasks_ret_nil_iff env kernel tasks
  · intro b cfg hcfg
    unfold runCodeBlock
    simp only [hcfg]
    by_cases hs : ((kernel cfg env.opts).Start (kernel cfg env.opts).new).1 = .returned none
    · exact ⟨((kernel cfg env.opts).Start (kernel cfg env.opts).new).2.2,
        ((kernel cfg env.opts).Wait
          ((kernel cfg env.opts).Start (kernel cfg env.opts).new).2.1).2.2,
        by simp only [hs, if_true]⟩
    · exact ⟨((kernel cfg env.opts).Start (kernel cfg env.opts).new).2.2, [],
        by simp only [hs, if_false]; simp⟩

/-- Witness of C14: of three blocks the second fails in Wait; the third is not
started. -/
theorem C14_runCmd_runs_blocks_in_order_witness :
    runCmd runEnvSecondFails "" [⟨⟨1⟩⟩, ⟨⟨2⟩⟩, ⟨⟨3⟩⟩] =
      ((runCodeBlock runEnvSecondFails scriptedKernel ⟨2⟩).1,
        blockEvents runEnvSecondFails scriptedKernel ([⟨⟨1⟩⟩] ++ [⟨⟨2⟩⟩])) ∧
    (runCmd runEnvSecondFails "" [⟨⟨1⟩⟩, ⟨⟨2⟩⟩, ⟨⟨3⟩⟩]).1 =
      .returned (some (.exitError (.exited 1))) ∧
    (runCmd runEnvSecondFails "" [⟨⟨1⟩⟩, ⟨⟨2⟩⟩, ⟨⟨3⟩⟩]).2 =
      [.callStart 1, .cmdStart none, .callWait 1, .cmdWait none,
        .callStart 2, .cmdStart none, .callWait 2, .cmdWait (some (.exitError (.exited 1)))] :=
  ⟨(C14_runCmd_runs_blocks_in_order runEnvSecondFails "" scriptedKernel
      [⟨⟨1⟩⟩, ⟨⟨2⟩⟩, ⟨⟨3⟩⟩] (by simp) rfl).1 [⟨⟨1⟩⟩] ⟨⟨2⟩⟩ [⟨⟨3⟩⟩] rfl (by decide) (by decide),
    by decide, by decide⟩

/-! ### The opinionated name of an environment variable -/

theorem matches_none (s : List Char) : Regex.none.matches s = false := by
  induction s with
  | nil => rfl
  | cons c cs ih => simpa [Regex.matches, Regex.deriv] using ih

theorem matches_seq_none (r : Regex) (s : List Char) :
    (Regex.seq .none r).matches s = false := by
  induction s with
  | nil => rfl
  | cons c cs ih => simpa [Regex.matches, Regex.deriv, Regex.nullable] using ih

theorem matches_alt (a b : Regex) (s : List Char) :
    (Regex.alt a b).matches s = (a.matches s || b.matches s) := by
  induction s generalizing a b with
  | nil => rfl
  | cons c cs ih => simp only [Regex.matches, Regex.deriv]; exact ih _ _

theorem matches_seq_empty (r : Regex) (s : List Char) :
    (Regex.seq .empty r).matches s = r.matches s := by
  cases s with
  | nil => simp [Regex.matches, Regex.nullable]
  | cons c cs =>
    simp [Regex.matches, Regex.deriv, Regex.nullable, matches_alt, matches_seq_none]

theorem matches_seq_cls (p : Char → Bool) (r : Regex) (s : List Char) :
    (Regex.seq (.cls p) r).matches s =
      match s with
      | [] => false
      | c :: cs => p c && r.matches cs := by
  cases s with
  | nil => simp [Regex.matches, Regex.nullable]
  | cons c cs =>
    simp only [Regex.matches, Regex.deriv, Regex.nullable]
    cases hp : p c
    · simp [matches_seq_none]
    · simp [matches_seq_empty]

theorem matches_star_cls (p : Char → Bool) (s : List Char) :
    (Regex.star (.cls p)).matches s = s.all p := by
  induction s with
  | nil => rfl
  | cons c cs ih =>
    simp only [Regex.matches, Regex.deriv, List.all_cons]
    cases hp : p c
    · simp [matches_seq_none]
    · simp [matches_seq_empty, ih]

theorem claimedNameRegex_matches_iff (s : List Char) :
    claimedNameRegex.matches s = true ↔
      ∃ c rest, s = c :: rest ∧ isUpperAZ c = true ∧ 1 ≤ rest.length ∧
        ∀ x ∈ rest, isUpperDigitUnderscore x = true := by
  unfold claimedNameRegex
  rw [matches_seq_cls]
  cases s with
  | nil => simp
  | cons c rest =>
    simp only [matches_seq_cls]
    cases rest with
    | nil => simp
    | cons d rest2 =>
      simp only [matches_star_cls]
      constructor
      · intro h
        simp only [Bool.and_eq_true, List.all_eq_true] at h
        refine ⟨c, d :: rest2, rfl, h.1, by simp, ?_⟩
        intro x hx
        simp only [List.mem_cons] at hx
        rcases hx with hx | hx
        · rw [hx]; exact h.2.1
        · exact h.2.2 x hx
      · rintro ⟨c2, rest, heq, hc, _, hall⟩
        simp only [List.cons.injEq] at heq
        obtain ⟨rfl, rfl⟩ := heq
        simp only [Bool.and_eq_true, List.all_eq_true]
        exact ⟨hc, hall d (by simp), fun x hx => hall x (by simp [hx])⟩

theorem tested_names_table :
    ∀ t ∈ Test_conformsOpinionatedEnvVarNaming,
      (t.2 = true ↔ (claimedNameRegex.matches t.1.toList = true ∧ 3 ≤ t.1.length)) := by
  decide

/-- C15 fails as stated: the name `AB` matches `^[A-Z][A-Z0-9_]{1,}$`, so the
function modelled from section 6 of the spec accepts it, and the test of the
repository requires `conformsOpinionatedEnvVarNaming("AB")` to be false; no
function that passes the test is true exactly on the names matching the
expression. -/
theorem C15_counterexample :
    claimedNameRegex.matches "AB".toList = true ∧
    conformsOpinionatedEnvVarNaming "AB" = true ∧
    ("AB", false) ∈ Test_conformsOpinionatedEnvVarNaming ∧
    ¬ ∃ f : String → Bool,
      (∀ t ∈ Test_conformsOpinionatedEnvVarNaming, f t.1 = t.2) ∧
      (∀ name : String, f name = true ↔ claimedNameRegex.matches name.toList = true) := by
  refine ⟨by decide, by decide, by decide, ?_⟩
  rintro ⟨f, hf, hiff⟩
  have h1 : f "AB" = false := hf ("AB", false) (by decide)
  have h2 : f "AB" = true := (hiff "AB").mpr (by decide)
  rw [h1] at h2
  exact Bool.noConfusion h2

/-- C15 as amended. Whatever function passes the test of the repository, on
every name the test exercises it is true iff the name matches
`^[A-Z][A-Z0-9_]{1,}$` and has at least 3 characters; in particular it is false
on `AB`, which matches. The expression itself matches exactly the names that
start with an uppercase letter, have length at least 2 and contain only
uppercase letters, digits and underscores. -/
theorem C15_conforms_on_tested_names (f : String → Bool)
    (hf : ∀ t ∈ Test_conformsOpinionatedEnvVarNaming, f t.1 = t.2) :
    (∀ t ∈ Test_conformsOpinionatedEnvVarNaming,
      (f t.1 = true ↔ (claimedNameRegex.matches t.1.toList = true ∧ 3 ≤ t.1.length))) ∧
    f "AB" = false ∧
    (∀ name : String, conformsOpinionatedEnvVarNaming name = true ↔
      ∃ c rest, name.toList = c :: rest ∧ isUpperAZ c = true ∧ 1 ≤ rest.length ∧
        ∀ x ∈ rest, isUpperDigitUnderscore x = true) := by
  refine ⟨?_, hf ("AB", false) (by decide), ?_⟩
  · intro t ht
    rw [hf t ht]
    exact tested_names_table t ht
  · intro name
    exact claimedNameRegex_matches_iff name.toList

/-- Witness of C15 as amended: the function that answers as the test requires
passes the test and is false on `AB`. -/
theorem C15_conforms_on_tested_names_witness :
    (∀ t ∈ Test_conformsOpinionatedEnvVarNaming, testedAnswer t.1 = t.2) ∧
    testedAnswer "AB" = false ∧ testedAnswer "ABC" = true :=
  ⟨by decide, (C15_conforms_on_tested_names testedAnswer (by decide)).2.1, by decide⟩

/-! ### Validation of the config -/

/-- C20 at the failing input: with the working directory `/work`, the project
directory `..cache` joins to `/work/..cache`, a path inside `/work` whose
relative form is `..cache`; `validateProjectDir` rejects it as outside of the
current working directory, and so does `validateFilename` for that filename.
A path that leaves `/work` is rejected too and `sub/x` is accepted. -/
theorem C20_dotdot_prefixed_name_is_rejected :
    filepath.Join "/work" "..cache" = "/work/..cache" ∧
    filepath.relChars "/work".toList "/work/..cache".toList = .ok "..cache".toList ∧
    config.validateProjectDir { ProjectDir := "..cache", Filename := "" } "/work" =
      some (.sentinel "outside of current working directory") ∧
    config.validateFilename { ProjectDir := "", Filename := "..cache" } "/work" =
      some (.sentinel "outside of current working directory") ∧
    config.validateProjectDir { ProjectDir := "../x", Filename := "" } "/work" =
      some (.sentinel "outside of current working directory") ∧
    config.validateProjectDir { ProjectDir := "sub/x", Filename := "" } "/work" = none := by
  refine ⟨by decide, rfl, by decide, by decide, by decide, by decide⟩

/-! ### The error of Wait -/

theorem withStack_eq_none (e : Option Err) : errors.WithStack e = none ↔ e = none := by
  cases e <;> simp [errors.WithStack]

/-- C22. Wait of a started VirtualCommand whose stdin adapter, if it has one,
is still open returns the first non-nil error in the order: the child's exit
error (with a stack), the error of `closeIO`, the error slot after the pumps
are joined, the error of cleanup (with a stack). It returns exactly that
error, nothing joined to it, and it returns nil iff all four are nil. -/
theorem C22_virtual_wait_first_error (sys : Sys) (c : VirtualCommand) (tr : List Event)
    (cmd : exec.Cmd) (hcmd : c.cmd = some cmd)
    (hopen : ∀ r, c.stdin = some r → r.done = false) :
    ∃ errIO,
      ( VirtualCommand.closeIO sys c tr).1 = some errIO ∧
      (VirtualCommand.Wait sys c tr).ret =
        .returned
          (([errors.WithStack (exec.Cmd.Wait sys cmd).2, errIO,
              ( VirtualCommand.wgWait sys c tr).1.err,
              errors.WithStack (c.cleanup []).1] : List (Option Err)).findSome? id) ∧
      ((VirtualCommand.Wait sys c tr).ret = .returned none ↔
        (exec.Cmd.Wait sys cmd).2 = none ∧ errIO = none ∧
          ( VirtualCommand.wgWait sys c tr).1.err = none ∧ (c.cleanup []).1 = none) := by
  have main : ∀ (a b p q r : Option Err),
      r = (if ((if ((if (a.isNone && b.isSome) = true then b else a).isNone && p.isSome) = true
              then p else (if (a.isNone && b.isSome) = true then b else a)).isNone &&
            q.isSome) = true then q
          else (if ((if (a.isNone && b.isSome) = true then b else a).isNone && p.isSome) = true
            then p else (if (a.isNone && b.isSome) = true then b else a))) →
      Ret.returned r = .returned (([a, b, p, q] : List (Option Err)).findSome? id) ∧
      (Ret.returned r = .returned none ↔ a = none ∧ b = none ∧ p = none ∧ q = none) := by
    intro a b p q r hr
    subst hr
    cases a <;> cases b <;> cases p <;> cases q <;> simp
  have hstate : ∀ (b : Option Err) (c2 : VirtualCommand) (tr2 : List Event),
      c2.wg = c.wg → c2.err = c.err → c2.cleanFuncs = c.cleanFuncs →
      ( VirtualCommand.closeIO sys c tr).1 = some b →
      (VirtualCommand.Wait sys c tr).ret =
        .returned
          (if ((if ((if ((errors.WithStack (exec.Cmd.Wait sys cmd).2).isNone && b.isSome) = true
                  then b else errors.WithStack (exec.Cmd.Wait sys cmd).2).isNone &&
                ( VirtualCommand.wgWait sys c2 tr2).1.err.isSome) = true
              then ( VirtualCommand.wgWait sys c2 tr2).1.err
              else (if ((errors.WithStack (exec.Cmd.Wait sys cmd).2).isNone && b.isSome) = true
                then b else errors.WithStack (exec.Cmd.Wait sys cmd).2)).isNone &&
              (errors.WithStack
                (( VirtualCommand.wgWait sys c2 tr2).1.cleanup
                  ( VirtualCommand.wgWait sys c2 tr2).2).1).isSome) = true
            then errors.WithStack
              (( VirtualCommand.wgWait sys c2 tr2).1.cleanup
                ( VirtualCommand.wgWait sys c2 tr2).2).1
            else (if ((if ((errors.WithStack (exec.Cmd.Wait sys cmd).2).isNone && b.isSome) = true
                  then b else errors.WithStack (exec.Cmd.Wait sys cmd).2).isNone &&
                ( VirtualCommand.wgWait sys c2 tr2).1.err.isSome) = true
              then ( VirtualCommand.wgWait sys c2 tr2).1.err
              else (if ((errors.WithStack (exec.Cmd.Wait sys cmd).2).isNone && b.isSome) = true
                then b else errors.WithStack (exec.Cmd.Wait sys cmd).2))) →
      ∃ errIO,
        ( VirtualCommand.closeIO sys c tr).1 = some errIO ∧
        (VirtualCommand.Wait sys c tr).ret =
          .returned
            (([errors.WithStack (exec.Cmd.Wait sys cmd).2, errIO,
                ( VirtualCommand.wgWait sys c tr).1.err,
                errors.WithStack (c.cleanup []).1] : List (Option Err)).findSome? id) ∧
        ((VirtualCommand.Wait sys c tr).ret = .returned none ↔
          (exec.Cmd.Wait sys cmd).2 = none ∧ errIO = none ∧
            ( VirtualCommand.wgWait sys c tr).1.err = none ∧ (c.cleanup []).1 = none) := by
    intro b c2 tr2 hwg herr hfn hio hret
    have hp : ( VirtualCommand.wgWait sys c2 tr2).1.err = ( VirtualCommand.wgWait sys c tr).1.err :=
      wgWait_err_congr sys c2 c tr2 tr hwg herr
    have hq : (( VirtualCommand.wgWait sys c2 tr2).1.cleanup
        ( VirtualCommand.wgWait sys c2 tr2).2).1 = (c.cleanup []).1 := by
      simp only [VirtualCommand.cleanup]
      rw [wgWait_cleanFuncs, hfn]
      exact cleanupLoop_err_indep _ _ _ _
    rw [hp, hq] at hret
    have h := main (errors.WithStack (exec.Cmd.Wait sys cmd).2) b
      ( VirtualCommand.wgWait sys c tr).1.err (errors.WithStack (c.cleanup []).1) _ rfl
    rw [← hret] at h
    refine ⟨b, hio, h.1, ?_⟩
    rw [h.2, withStack_eq_none, withStack_eq_none]
  cases hs : c.stdin with
  | none =>
    refine hstate _ { c with cmd := some (exec.Cmd.Wait sys cmd).1 }
      (tr ++ [.cmdWait (exec.Cmd.Wait sys cmd).2] ++ [.ttyClose (ttyCloseResult sys c.tty)])
      rfl rfl rfl (by rw [closeIO_no_stdin sys c tr hs]) ?_
    unfold VirtualCommand.Wait
    simp only [hcmd]
    rw [closeIO_no_stdin sys _ _ (show ({ c with cmd := some (exec.Cmd.Wait sys cmd).1 } :
      VirtualCommand).stdin = none from hs)]
  | some r =>
    have hd := hopen r hs
    refine hstate _
      { c with cmd := some (exec.Cmd.Wait sys cmd).1, stdin := some { r with done := true } }
      (tr ++ [.cmdWait (exec.Cmd.Wait sys cmd).2] ++
        [.stdinClose none, .ttyClose (ttyCloseResult sys c.tty)])
      rfl rfl rfl (by rw [closeIO_open_stdin sys c tr r hs hd]) ?_
    unfold VirtualCommand.Wait
    simp only [hcmd]
    rw [closeIO_open_stdin sys _ _ r (show ({ c with cmd := some (exec.Cmd.Wait sys cmd).1 } :
      VirtualCommand).stdin = some r from hs) hd]

/-- Witness of C22: the child exits with status 1 and the second cleanup
callback fails; the exit error is returned alone. -/
theorem C22_virtual_wait_first_error_witness :
    (VirtualCommand.Wait sysExitOne virtualStarted []).ret =
      .returned (some (.wrap .stack (.exitError (.exited 1)))) ∧
    ∃ errIO,
      ( VirtualCommand.closeIO sysExitOne virtualStarted []).1 = some errIO ∧
      (VirtualCommand.Wait sysExitOne virtualStarted []).ret =
        .returned
          (([errors.WithStack (exec.Cmd.Wait sysExitOne cmdStarted).2, errIO,
              ( VirtualCommand.wgWait sysExitOne virtualStarted []).1.err,
              errors.WithStack (virtualStarted.cleanup []).1] : List (Option Err)).findSome? id) ∧
      ((VirtualCommand.Wait sysExitOne virtualStarted []).ret = .returned none ↔
        (exec.Cmd.Wait sysExitOne cmdStarted).2 = none ∧ errIO = none ∧
          ( VirtualCommand.wgWait sysExitOne virtualStarted []).1.err = none ∧
          (virtualStarted.cleanup []).1 = none) :=
  ⟨by decide,
    C22_virtual_wait_first_error sysExitOne virtualStarted [] cmdStarted rfl (by decide)⟩

/-! ### runCodeBlock -/

theorem native_start_registers (sys : Sys) (c : NativeCommand) (tr : List Event)
    (cfg : Config) (cleanups : List CleanFunc)
    (hn : sys.normalizeConfig c.cfg = .ok (cfg, cleanups)) :
    (NativeCommand.Start sys c tr).state.cleanFuncs = c.cleanFuncs ++ cleanups ∧
    ∀ id res, Event.cleanFunc id res ∈ (NativeCommand.Start sys c tr).trace →
      Event.cleanFunc id res ∈ tr := by
  unfold NativeCommand.Start
  simp only [hn]
  cases hsp : sys.startProcess cfg <;> cases hin : c.opts.Stdin with
  | file fd => cases hd : sys.dup fd <;> simp [hd, exec.Cmd.Start, hsp]
  | absent => simp [exec.Cmd.Start, hsp]
  | typedNil => simp [exec.Cmd.Start, hsp]
  | discard => simp [exec.Cmd.Start, hsp]
  | other n => simp [exec.Cmd.Start, hsp]

theorem virtual_start_registers (sys : Sys) (c : VirtualCommand) (tr : List Event)
    (cfg : Config) (cleanups : List CleanFunc)
    (hn : sys.normalizeConfig c.cfg = .ok (cfg, cleanups)) :
    (VirtualCommand.Start sys c tr).state.cleanFuncs = c.cleanFuncs ++ cleanups ∧
    ∀ id res, Event.cleanFunc id res ∈ (VirtualCommand.Start sys c tr).trace →
      Event.cleanFunc id res ∈ tr := by
  unfold VirtualCommand.Start
  simp only [hn]
  cases hpo : sys.ptyOpen with
  | error e => simp
  | ok ms =>
    obtain ⟨master, slave⟩ := ms
    cases hde : sys.disableEcho slave with
    | some e => simp [hde]
    | none =>
      cases hsp : sys.startProcess cfg with
      | error e => simp [hde, exec.Cmd.Start, hsp]
      | ok p =>
        simp only [hde, exec.Cmd.Start, hsp]
        constructor
        · split <;> split <;> rfl
        · intro id res
          split <;> split <;> simp

/-- C23. Once the config of the block is made, `runCodeBlock` calls Wait iff
Start returned nil. After a Start that returned nil its result is the result
of Wait, made on the command as Start left it. Otherwise the result of Start
is its result, unchanged, and Start is the only call made; with a Native or a
Virtual command whose normalization had succeeded, the cleanup callbacks that
Start registered on the command are then not run. -/
theorem C23_runCodeBlock_waits_iff_started (env : RunEnv) (kernel : Kernel) (sys : Sys)
    (b : CodeBlock) (cfg cfg2 : Config) (cleanups : List CleanFunc)
    (hcfg : env.NewConfigFromCodeBlock b = .ok cfg) :
    (((kernel cfg env.opts).Start (kernel cfg env.opts).new).1 = .returned none →
      runCodeBlock env kernel b =
        (((kernel cfg env.opts).Wait
            ((kernel cfg env.opts).Start (kernel cfg env.opts).new).2.1).1,
          .callStart b.id :: ((kernel cfg env.opts).Start (kernel cfg env.opts).new).2.2 ++
            .callWait b.id ::
              ((kernel cfg env.opts).Wait
                ((kernel cfg env.opts).Start (kernel cfg env.opts).new).2.1).2.2)) ∧
    (((kernel cfg env.opts).Start (kernel cfg env.opts).new).1 ≠ .returned none →
      runCodeBlock env kernel b =
        (((kernel cfg env.opts).Start (kernel cfg env.opts).new).1,
          .callStart b.id :: ((kernel cfg env.opts).Start (kernel cfg env.opts).new).2.2)) ∧
    (sys.normalizeConfig cfg = .ok (cfg2, cleanups) →
      (NativeCommand.Start sys (NewNative cfg env.opts) []).ret ≠ .returned none →
      (runCodeBlock env (nativeKernel sys) b).1 =
          (NativeCommand.Start sys (NewNative cfg env.opts) []).ret ∧
        (NativeCommand.Start sys (NewNative cfg env.opts) []).state.cleanFuncs = cleanups ∧
        ∀ id res, Event.cleanFunc id res ∉ (runCodeBlock env (nativeKernel sys) b).2) ∧
    (sys.normalizeConfig cfg = .ok (cfg2, cleanups) →
      (VirtualCommand.Start sys (NewVirtual cfg env.opts) []).ret ≠ .returned none →
      (runCodeBlock env (virtualKernel sys) b).1 =
          (VirtualCommand.Start sys (NewVirtual cfg env.opts) []).ret ∧
        (VirtualCommand.Start sys (NewVirtual cfg env.opts) []).state.cleanFuncs = cleanups ∧
        ∀ id res, Event.cleanFunc id res ∉ (runCodeBlock env (virtualKernel sys) b).2) := by
  refine ⟨?_, ?_, ?_, ?_⟩
  · intro h
    unfold runCodeBlock
    simp only [hcfg, h, if_true]
  · intro h
    unfold runCodeBlock
    simp only [hcfg, h, if_false]
  · intro hn hfail
    have hreg := native_start_registers sys (NewNative cfg env.opts) [] cfg2 cleanups hn
    have hrun : runCodeBlock env (nativeKernel sys) b =
        ((NativeCommand.Start sys (NewNative cfg env.opts) []).ret,
          .callStart b.id :: (NativeCommand.Start sys (NewNative cfg env.opts) []).trace) := by
      unfold runCodeBlock
      simp only [hcfg, nativeKernel, hfail, if_false]
    rw [hrun]
    refine ⟨rfl, by simpa [NewNative] using hreg.1, ?_⟩
    intro id res hmem
    simp only [List.mem_cons] at hmem
    rcases hmem with h | h
    · cases h
    · exact absurd (hreg.2 id res h) (by simp)
  · intro hn hfail
    have hreg := virtual_start_registers sys (NewVirtual cfg env.opts) [] cfg2 cleanups hn
    have hrun : runCodeBlock env (virtualKernel sys) b =
        ((VirtualCommand.Start sys (NewVirtual cfg env.opts) []).ret,
          .callStart b.id :: (VirtualCommand.Start sys (NewVirtual cfg env.opts) []).trace) := by
      unfold runCodeBlock
      simp only [hcfg, virtualKernel, hfail, if_false]
    rw [hrun]
    refine ⟨rfl, by simpa [NewVirtual] using hreg.1, ?_⟩
    intro id res hmem
    simp only [List.mem_cons] at hmem
    rcases hmem with h | h
    · cases h
    · exact absurd (hreg.2 id res h) (by simp)

/-- Witness of C23: normalization registers a callback, the child of the Native
command cannot be created, and `runCodeBlock` returns the error of Start with
no callback run. -/
theorem C23_runCodeBlock_waits_iff_started_witness :
    (runCodeBlock runEnvSh (nativeKernel sysCleanupThenStartFails) ⟨1⟩).1 =
        (NativeCommand.Start sysCleanupThenStartFails (NewNative cfgSh runEnvSh.opts) []).ret ∧
      (NativeCommand.Start sysCleanupThenStartFails (NewNative cfgSh runEnvSh.opts)
        []).state.cleanFuncs = [cleanOk] ∧
      ∀ id res, Event.cleanFunc id res ∉
        (runCodeBlock runEnvSh (nativeKernel sysCleanupThenStartFails) ⟨1⟩).2 :=
  (C23_runCodeBlock_waits_iff_started runEnvSh scriptedKernel sysCleanupThenStartFails ⟨1⟩
    cfgSh cfgSh [cleanOk] rfl).2.2.1 rfl (by decide)

/-! ### The process handle -/

theorem native_start_ok_process (sys : Sys) (c : NativeCommand) (tr : List Event)
    (h : (NativeCommand.Start sys c tr).ret = .returned none) :
    ∃ p, (NativeCommand.Start sys c tr).state.cmd =
      some { Process := some p, ProcessState := none } := by
  unfold NativeCommand.Start at h ⊢
  cases hn : sys.normalizeConfig c.cfg with
  | error e => simp [hn] at h
  | ok r =>
    obtain ⟨cfg, cleanups⟩ := r
    cases hsp : sys.startProcess cfg <;> cases hin : c.opts.Stdin with
    | file fd =>
      cases hd : sys.dup fd <;>
        simp_all [exec.Cmd.Start, errors.WithStack, errors.Wrap]
    | absent => simp_all [exec.Cmd.Start, errors.WithStack]
    | typedNil => simp_all [exec.Cmd.Start, errors.WithStack]
    | discard => simp_all [exec.Cmd.Start, errors.WithStack]
    | other n => simp_all [exec.Cmd.Start, errors.WithStack]

theorem virtual_start_ok_process (sys : Sys) (c : VirtualCommand) (tr : List Event)
    (h : (VirtualCommand.Start sys c tr).ret = .returned none) :
    ∃ p, (VirtualCommand.Start sys c tr).state.cmd =
      some { Process := some p, ProcessState := none } := by
  unfold VirtualCommand.Start at h ⊢
  cases hn : sys.normalizeConfig c.cfg with
  | error e => simp [hn] at h
  | ok r =>
    obtain ⟨cfg, cleanups⟩ := r
    cases hpo : sys.ptyOpen with
    | error e => simp [hn, hpo, errors.WithStack] at h
    | ok ms =>
      obtain ⟨master, slave⟩ := ms
      cases hde : sys.disableEcho slave with
      | some e => simp [hn, hpo, hde] at h
      | none =>
        cases hsp : sys.startProcess cfg with
        | error e => simp [hn, hpo, hde, exec.Cmd.Start, hsp, errors.WithStack] at h
        | ok p =>
          refine ⟨p, ?_⟩
          simp only [hde, exec.Cmd.Start, hsp]
          split <;> split <;> rfl

theorem native_failed_start_process (sys : Sys) (c : NativeCommand) (tr : List Event)
    (hnew : c.cmd = none) (h : (NativeCommand.Start sys c tr).ret ≠ .returned none) :
    (NativeCommand.Start sys c tr).state.cmd = none ∨
      ∃ cmd, (NativeCommand.Start sys c tr).state.cmd = some cmd ∧ cmd.Process = none := by
  unfold NativeCommand.Start at h ⊢
  cases hn : sys.normalizeConfig c.cfg with
  | error e => left; simp [hnew]
  | ok r =>
    obtain ⟨cfg, cleanups⟩ := r
    cases hsp : sys.startProcess cfg <;> cases hin : c.opts.Stdin with
    | file fd =>
      cases hd : sys.dup fd <;>
        simp_all [exec.Cmd.Start, errors.WithStack, errors.Wrap]
    | absent => simp_all [exec.Cmd.Start, errors.WithStack]
    | typedNil => simp_all [exec.Cmd.Start, errors.WithStack]
    | discard => simp_all [exec.Cmd.Start, errors.WithStack]
    | other n => simp_all [exec.Cmd.Start, errors.WithStack]

theorem virtual_failed_start_process (sys : Sys) (c : VirtualCommand) (tr : List Event)
    (hnew : c.cmd = none) (h : (VirtualCommand.Start sys c tr).ret ≠ .returned none) :
    (VirtualCommand.Start sys c tr).state.cmd = none ∨
      ∃ cmd, (VirtualCommand.Start sys c tr).state.cmd = some cmd ∧ cmd.Process = none := by
  unfold VirtualCommand.Start at h ⊢
  cases hn : sys.normalizeConfig c.cfg with
  | error e => left; simp [hnew]
  | ok r =>
    obtain ⟨cfg, cleanups⟩ := r
    cases hpo : sys.ptyOpen with
    | error e => left; simp [hnew]
    | ok ms =>
      obtain ⟨master, slave⟩ := ms
      cases hde : sys.disableEcho slave with
      | some e => left; simp [hde, hnew]
      | none =>
        cases hsp : sys.startProcess cfg with
        | error e => right; simp [hde, exec.Cmd.Start, hsp]
        | ok p => simp [hn, hpo, hde, exec.Cmd.Start, hsp] at h

theorem native_signal_panics (g : Globals) (sys : Sys) (c : NativeCommand) (sig : os.Signal)
    (tr : List Event)
    (h : c.cmd = none ∨ ∃ cmd, c.cmd = some cmd ∧ cmd.Process = none) :
    (NativeCommand.Signal g sys c sig tr).ret = .panicked := by
  unfold NativeCommand.Signal
  rcases h with h | ⟨cmd, h, hp⟩
  · simp [h]
  · simp [h, hp]

theorem virtual_signal_panics (g : Globals) (sys : Sys) (c : VirtualCommand) (sig : os.Signal)
    (tr : List Event)
    (h : c.cmd = none ∨ ∃ cmd, c.cmd = some cmd ∧ cmd.Process = none) :
    (VirtualCommand.Signal g sys c sig tr).ret = .panicked := by
  unfold VirtualCommand.Signal
  rcases h with h | ⟨cmd, h, hp⟩
  · simp [h]
  · simp [h, hp]

theorem native_signal_returns (g : Globals) (sys : Sys) (c : NativeCommand) (sig : os.Signal)
    (tr : List Event) (cmd : exec.Cmd) (p : os.Process)
    (hc : c.cmd = some cmd) (hp : cmd.Process = some p) :
    (NativeCommand.Signal g sys c sig tr).ret ≠ .panicked := by
  unfold NativeCommand.Signal
  simp only [hc, hp]
  split
  · split
    · simp
    · split <;> simp
  · split <;> simp

theorem virtual_signal_returns (g : Globals) (sys : Sys) (c : VirtualCommand) (sig : os.Signal)
    (tr : List Event) (cmd : exec.Cmd) (p : os.Process)
    (hc : c.cmd = some cmd) (hp : cmd.Process = some p) :
    (VirtualCommand.Signal g sys c sig tr).ret ≠ .panicked := by
  unfold VirtualCommand.Signal
  simp only [hc, hp]
  split
  · split <;> simp
  · simp

theorem native_wait_returns (sys : Sys) (c : NativeCommand) (tr : List Event) (cmd : exec.Cmd)
    (hc : c.cmd = some cmd) : (NativeCommand.Wait sys c tr).ret ≠ .panicked := by
  unfold NativeCommand.Wait
  simp [hc]

theorem virtual_wait_returns (sys : Sys) (c : VirtualCommand) (tr : List Event) (cmd : exec.Cmd)
    (hc : c.cmd = some cmd) (hopen : ∀ r, c.stdin = some r → r.done = false) :
    (VirtualCommand.Wait sys c tr).ret ≠ .panicked := by
  cases hs : c.stdin with
  | none =>
    unfold VirtualCommand.Wait
    simp only [hc]
    rw [closeIO_no_stdin sys _ _ (show ({ c with cmd := some (exec.Cmd.Wait sys cmd).1 } :
      VirtualCommand).stdin = none from hs)]
    simp
  | some r =>
    unfold VirtualCommand.Wait
    simp only [hc]
    rw [closeIO_open_stdin sys _ _ r (show ({ c with cmd := some (exec.Cmd.Wait sys cmd).1 } :
      VirtualCommand).stdin = some r from hs) (hopen r hs)]
    simp

/-- C24. After a Start that returned nil, `cmd` and `cmd.Process` of the
command are set, so Signal returns (it does not panic) and Wait reaches the
wait for the child: Wait of the Native command returns, Wait of the Virtual
command makes the child wait as its first effect and returns when its stdin
adapter is still open. On a command without `cmd` or without `cmd.Process`,
as a new command is and as a command is after a first Start that returned an
error, Signal panics on the nil dereference. All of it for both variants. -/
theorem C24_process_handle_after_start (g : Globals) (sys : Sys) (nc : NativeCommand)
    (vc : VirtualCommand) (sig : os.Signal) (tr tr2 : List Event) :
    ((NativeCommand.Start sys nc tr).ret = .returned none →
      ∃ p, (NativeCommand.Start sys nc tr).state.cmd =
          some { Process := some p, ProcessState := none } ∧
        (NativeCommand.Signal g sys (NativeCommand.Start sys nc tr).state sig tr2).ret ≠
          .panicked ∧
        (NativeCommand.Wait sys (NativeCommand.Start sys nc tr).state tr2).ret ≠ .panicked) ∧
    ((VirtualCommand.Start sys vc tr).ret = .returned none →
      ∃ p, (VirtualCommand.Start sys vc tr).state.cmd =
          some { Process := some p, ProcessState := none } ∧
        (VirtualCommand.Signal g sys (VirtualCommand.Start sys vc tr).state sig tr2).ret ≠
          .panicked ∧
        (∃ rest, (VirtualCommand.Wait sys (VirtualCommand.Start sys vc tr).state tr2).trace =
          tr2 ++ Event.cmdWait
            (exec.Cmd.Wait sys { Process := some p, ProcessState := none }).2 :: rest) ∧
        ((∀ r, (VirtualCommand.Start sys vc tr).state.stdin = some r → r.done = false) →
          (VirtualCommand.Wait sys (VirtualCommand.Start sys vc tr).state tr2).ret ≠
            .panicked)) ∧
    (∀ cfg opts,
      (NativeCommand.Signal g sys (NewNative cfg opts) sig tr).ret = .panicked ∧
      (VirtualCommand.Signal g sys (NewVirtual cfg opts) sig tr).ret = .panicked) ∧
    (nc.cmd = none → (NativeCommand.Start sys nc tr).ret ≠ .returned none →
      (NativeCommand.Signal g sys (NativeCommand.Start sys nc tr).state sig tr2).ret =
        .panicked) ∧
    (vc.cmd = none → (VirtualCommand.Start sys vc tr).ret ≠ .returned none →
      (VirtualCommand.Signal g sys (VirtualCommand.Start sys vc tr).state sig tr2).ret =
        .panicked) := by
  refine ⟨?_, ?_, ?_, ?_, ?_⟩
  · intro h
    obtain ⟨p, hp⟩ := native_start_ok_process sys nc tr h
    exact ⟨p, hp, native_signal_returns g sys _ sig tr2 _ p hp rfl,
      native_wait_returns sys _ tr2 _ hp⟩
  · intro h
    obtain ⟨p, hp⟩ := virtual_start_ok_process sys vc tr h
    refine ⟨p, hp, virtual_signal_returns g sys _ sig tr2 _ p hp rfl, ?_,
      virtual_wait_returns sys _ tr2 _ hp⟩
    rw [virtual_wait_trace sys _ tr2 _ hp]
    exact ⟨_, by simp only [List.append_assoc, List.singleton_append]; rfl⟩
  · intro cfg opts
    exact ⟨native_signal_panics g sys _ sig tr (Or.inl rfl),
      virtual_signal_panics g sys _ sig tr (Or.inl rfl)⟩
  · intro hnew h
    exact native_signal_panics g sys _ sig tr2 (native_failed_start_process sys nc tr hnew h)
  · intro hnew h
    exact virtual_signal_panics g sys _ sig tr2 (virtual_failed_start_process sys vc tr hnew h)

/-- Witness of C24: a new Native command started where every call succeeds
can be signalled and waited for; started where the child cannot be created,
its Signal panics. -/
theorem C24_process_handle_after_start_witness :
    (∃ p, (NativeCommand.Start sysOk (NewNative cfgSh optsNone) []).state.cmd =
        some { Process := some p, ProcessState := none } ∧
      (NativeCommand.Signal ⟨true⟩ sysOk
        (NativeCommand.Start sysOk (NewNative cfgSh optsNone) []).state 2 []).ret ≠
        .panicked ∧
      (NativeCommand.Wait sysOk
        (NativeCommand.Start sysOk (NewNative cfgSh optsNone) []).state []).ret ≠ .panicked) ∧
    (NativeCommand.Signal ⟨true⟩ sysStartFails
      (NativeCommand.Start sysStartFails (NewNative cfgSh optsNone) []).state 2 []).ret =
      .panicked :=
  ⟨(C24_process_handle_after_start ⟨true⟩ sysOk (NewNative cfgSh optsNone)
      (NewVirtual cfgSh optsNone) 2 [] []).1 (by decide),
    (C24_process_handle_after_start ⟨true⟩ sysStartFails (NewNative cfgSh optsNone)
      (NewVirtual cfgSh optsNone) 2 [] []).2.2.2.1 rfl (by decide)⟩

/-! ### ParseYAML -/

/-- C21 fails as stated: a document whose version field is the sequence
`[1, 2]`, which is not `v1alpha1`, gets the error of decoding the version and
not `unknown version: <version>`, whatever text stands for the version; and a
`v1alpha1` document whose body cannot be decoded to the message gets the error
of that decoding, which is none of the errors of proto validation, conversion
and `validateConfig`. -/
theorem C21_counterexample :
    config.ParseYAML config.envVersionNotText "version: [1, 2]" =
      .error (errors.wrapNonNil
        (.sentinel "yaml: unmarshal errors: cannot unmarshal !!seq into string")
        "failed to unmarshal version") ∧
    (∀ version : String,
      config.ParseYAML config.envVersionNotText "version: [1, 2]" ≠
        .error (.sentinel ("unknown version: " ++ version))) ∧
    config.ParseYAML config.envBodyNotMessage "version: v1alpha1\nnokey: 1" =
      .error (errors.wrapNonNil (.sentinel "proto: unknown field \"nokey\"")
        "failed to unmarshal json to proto") ∧
    (∀ e : Err,
      config.ParseYAML config.envBodyNotMessage "version: v1alpha1\nnokey: 1" ≠
          .error (errors.wrapNonNil e "failed to validate v1alpha1 config") ∧
      config.ParseYAML config.envBodyNotMessage "version: v1alpha1\nnokey: 1" ≠
          .error (errors.wrapNonNil e "failed to convert v1alpha1 config") ∧
      config.ParseYAML config.envBodyNotMessage "version: v1alpha1\nnokey: 1" ≠
          .error (errors.wrapNonNil e "failed to validate config")) := by
  have h1 : config.ParseYAML config.envVersionNotText "version: [1, 2]" =
      .error (errors.wrapNonNil
        (.sentinel "yaml: unmarshal errors: cannot unmarshal !!seq into string")
        "failed to unmarshal version") := rfl
  have h2 : config.ParseYAML config.envBodyNotMessage "version: v1alpha1\nnokey: 1" =
      .error (errors.wrapNonNil (.sentinel "proto: unknown field \"nokey\"")
        "failed to unmarshal json to proto") := by
    simp [config.ParseYAML, config.parseVersionFromYAML, config.parseYAMLv1alpha1,
      config.envBodyNotMessage, config.envOf]
  refine ⟨h1, ?_, h2, ?_⟩
  · intro version h
    rw [h1] at h
    simp [errors.wrapNonNil] at h
  · intro e
    rw [h2]
    simp [errors.wrapNonNil]

/-- C21 as amended. A document whose version field cannot be decoded to a text
gets the error of that decoding, wrapped as `failed to unmarshal version`. A
document whose version field is decoded to anything other than `v1alpha1`, an
empty or missing one included, gets no Config and the error
`unknown version: <version>`. For version `v1alpha1` the body is decoded to
the message first, and a failure of that decoding is the returned error; once
it is decoded, proto validation, conversion and `validateConfig` are tried in
that order: the first of them that fails gives the returned error, wrapped
with the text of its step, and no Config; a Config is returned only if all
three succeed, and then it is the converted one. -/
theorem C21_parseYAML_version_and_steps (env : config.Env) (data version : String)
    (pc : config.ProtoConfig) :
    (env.unmarshalVersion data = .ok version → version ≠ "v1alpha1" →
      config.ParseYAML env data = .error (.sentinel ("unknown version: " ++ version))) ∧
    (env.unmarshalVersion data = .ok "" →
      config.ParseYAML env data = .error (.sentinel "unknown version: ")) ∧
    (env.unmarshalVersion data = .ok "v1alpha1" → config.parseYAMLv1alpha1 env data = .ok pc →
      (∀ e, config.validateProto env pc = some e →
        config.ParseYAML env data =
          .error (errors.wrapNonNil e "failed to validate v1alpha1 config")) ∧
      (∀ e, config.validateProto env pc = none → config.configV1alpha1ToConfig pc = .error e →
        config.ParseYAML env data =
          .error (errors.wrapNonNil e "failed to convert v1alpha1 config")) ∧
      (∀ cfg e, config.validateProto env pc = none →
        config.configV1alpha1ToConfig pc = .ok cfg → config.validateConfig env cfg = some e →
        config.ParseYAML env data = .error (errors.wrapNonNil e "failed to validate config")) ∧
      (∀ cfg, config.validateProto env pc = none →
        config.configV1alpha1ToConfig pc = .ok cfg → config.validateConfig env cfg = none →
        config.ParseYAML env data = .ok cfg)) ∧
    (∀ cfg, config.ParseYAML env data = .ok cfg →
      env.unmarshalVersion data = .ok "v1alpha1" ∧
      ∃ m, config.parseYAMLv1alpha1 env data = .ok m ∧ config.validateProto env m = none ∧
        config.configV1alpha1ToConfig m = .ok cfg ∧ config.validateConfig env cfg = none) ∧
    (∀ e, env.unmarshalVersion data = .error e →
      config.ParseYAML env data =
        .error (errors.wrapNonNil e "failed to unmarshal version")) ∧
    (∀ e, env.unmarshalVersion data = .ok "v1alpha1" →
      config.parseYAMLv1alpha1 env data = .error e → config.ParseYAML env data = .error e) := by
  refine ⟨?_, ?_, ?_, ?_, ?_, ?_⟩
  rotate_left 4
  · intro e hv
    simp [config.ParseYAML, config.parseVersionFromYAML, hv]
  · intro e hv hparse
    simp [config.ParseYAML, config.parseVersionFromYAML, hv, hparse]
  · intro hv hne
    simp [config.ParseYAML, config.parseVersionFromYAML, hv, hne, errors.Errorf]
  · intro hv
    simp [config.ParseYAML, config.parseVersionFromYAML, hv, errors.Errorf]
  · intro hv hparse
    refine ⟨?_, ?_, ?_, ?_⟩
    · intro e h1
      simp [config.ParseYAML, config.parseVersionFromYAML, hv, hparse, h1]
    · intro e h1 h2
      simp [config.ParseYAML, config.parseVersionFromYAML, hv, hparse, h1, h2]
    · intro cfg e h1 h2 h3
      simp [config.ParseYAML, config.parseVersionFromYAML, hv, hparse, h1, h2, h3]
    · intro cfg h1 h2 h3
      simp [config.ParseYAML, config.parseVersionFromYAML, hv, hparse, h1, h2, h3]
  · intro cfg h
    unfold config.ParseYAML config.parseVersionFromYAML at h
    cases hv : env.unmarshalVersion data with
    | error e => simp [hv] at h
    | ok v =>
      simp only [hv] at h
      by_cases hver : v = "v1alpha1"
      · subst hver
        simp only [if_true] at h
        refine ⟨rfl, ?_⟩
        cases hp : config.parseYAMLv1alpha1 env data with
        | error e => simp [hp] at h
        | ok m =>
          simp only [hp] at h
          cases h1 : config.validateProto env m with
          | some e => simp [h1] at h
          | none =>
            simp only [h1] at h
            cases h2 : config.configV1alpha1ToConfig m with
            | error e => simp [h2] at h
            | ok cfg2 =>
              simp only [h2] at h
              cases h3 : config.validateConfig env cfg2 with
              | some e => simp [h3] at h
              | none =>
                simp only [h3] at h
                cases h
                exact ⟨m, rfl, h1, h2, h3⟩
      · simp [hver] at h

/-- Witness of C21 as amended: version `v2` is unknown; a `v1alpha1` document with the
project directory `sub` yields its Config; one with a kernel of an unknown
type fails in the conversion. -/
theorem C21_parseYAML_version_and_steps_witness :
    config.ParseYAML (config.envOf "v2" "sub" []) "version: v2" =
      .error (.sentinel "unknown version: v2") ∧
    config.ParseYAML (config.envOf "v1alpha1" "sub" []) "version: v1alpha1" =
      .ok { ProjectDir := "sub", Filename := "", Kernels := [] } ∧
    config.ParseYAML
        (config.envOf "v1alpha1" "sub" [⟨.ok (.other "runme.config.v1alpha1.Other")⟩])
        "version: v1alpha1" =
      .error (errors.wrapNonNil
        (errors.Errorf "unknown kernel type: runme.config.v1alpha1.Other")
        "failed to convert v1alpha1 config") :=
  ⟨(C21_parseYAML_version_and_steps (config.envOf "v2" "sub" []) "version: v2" "v2"
      { ProjectDir := "sub", Filename := "", Kernels := [] }).1 rfl (by decide),
    ((C21_parseYAML_version_and_steps (config.envOf "v1alpha1" "sub" []) "version: v1alpha1"
      "v1alpha1" { ProjectDir := "sub", Filename := "", Kernels := [] }).2.2.1 rfl rfl).2.2.2
      { ProjectDir := "sub", Filename := "", Kernels := [] } rfl rfl (by decide),
    ((C21_parseYAML_version_and_steps
      (config.envOf "v1alpha1" "sub" [⟨.ok (.other "runme.config.v1alpha1.Other")⟩])
      "version: v1alpha1" "v1alpha1"
      { ProjectDir := "sub", Filename := "",
        Kernels := [⟨.ok (.other "runme.config.v1alpha1.Other")⟩] }).2.2.1 rfl rfl).2.1
      (errors.Errorf "unknown kernel type: runme.config.v1alpha1.Other") rfl rfl⟩

end Runme
